import Mathlib

/-!
# Verification of the `pyro` trace-based ELBO estimator core

A shallow embedding, in Lean 4, of `src/pyro/infer/trace_elbo.py`:
the function `compute_site_log_r` and the class `Trace_ELBO` with its
methods `_get_traces`, `loss` and `loss_and_grads`.

Modelling conventions:
* Scalar values are `Flt := Option ℚ`; `none` models a floating-point NaN
  (every arithmetic operation propagates it), `some q` a finite float.
  Exact rationals stand in for IEEE floats.
* A torch tensor is modelled by its shape (row-major), its flat data list
  and its `requires_grad` flag.  Out-of-place tensor operations produce a
  fresh tensor; the in-place `-=` of the source is modelled by explicitly
  writing the freshly produced tensor back into the trace record it was
  read from, so that the state of the traces after a call is visible.
* Python exceptions (`KeyError`, shape errors) are modelled with
  `Except String`.
* Helpers of the repository that are not under `src/`
  (`MultiViewTensor`, `n_compatible_indices`, the trace engine's
  `log_pdf`, the validation helpers) are modelled from the spec; each
  such definition carries a doc comment starting `Modelled from the
  spec:`.
-/

/-- A floating-point scalar: `none` is NaN, `some q` a finite value. -/
abbrev Flt := Option ℚ

/-- Float addition; NaN propagates. -/
def fadd : Flt → Flt → Flt
  | some a, some b => some (a + b)
  | _, _ => none

/-- Float negation; NaN propagates. -/
def fneg : Flt → Flt
  | some a => some (-a)
  | none => none

/-- Float subtraction; NaN propagates. -/
def fsub (a b : Flt) : Flt := fadd a (fneg b)

/-- Float multiplication; NaN propagates. -/
def fmul : Flt → Flt → Flt
  | some a, some b => some (a * b)
  | _, _ => none

/-- Division of a float by a (Python int) denominator; NaN propagates. -/
def fdivn (a : Flt) (n : ℕ) : Flt :=
  match a with
  | some q => some (q / (n : ℚ))
  | none => none

/-- Sum of a list of floats, left to right, starting from `0.0`. -/
def fsum (l : List Flt) : Flt := l.foldl fadd (some 0)

/-- `pyro.util.is_nan`, at the scalar level: detects NaN. -/
def is_nan (a : Flt) : Bool := a.isNone

/-- A torch tensor: row-major shape, flat data, autograd flag. -/
structure Tensor where
  shape : List ℕ
  data : List Flt
  requiresGrad : Bool
deriving DecidableEq

/-- `t.item()`: the value of a zero-dimensional tensor. -/
def Tensor.item (t : Tensor) : Flt := t.data.headD (some 0)

/-- `t.detach()`: same values, removed from the autograd graph. -/
def Tensor.detach (t : Tensor) : Tensor := { t with requiresGrad := false }

/-- `t.sum()`: total sum as a zero-dimensional tensor (keeps the grad flag). -/
def Tensor.tsum (t : Tensor) : Tensor := ⟨[], [fsum t.data], t.requiresGrad⟩

/-- Elementwise addition of two tensors of the same shape (the only form of
tensor addition the embedded code performs); keeps the first shape. -/
def Tensor.addSameShape (a b : Tensor) : Tensor :=
  ⟨a.shape, List.zipWith fadd a.data b.data, a.requiresGrad || b.requiresGrad⟩

/-- Elementwise tensor subtraction; errors on a shape mismatch. -/
def Tensor.sub (a b : Tensor) : Except String Tensor :=
  if a.shape = b.shape then
    .ok ⟨a.shape, List.zipWith fsub a.data b.data, a.requiresGrad || b.requiresGrad⟩
  else .error "tensor shape mismatch in subtraction"

/-- Elementwise tensor multiplication; errors on a shape mismatch. -/
def Tensor.mul (a b : Tensor) : Except String Tensor :=
  if a.shape = b.shape then
    .ok ⟨a.shape, List.zipWith fmul a.data b.data, a.requiresGrad || b.requiresGrad⟩
  else .error "tensor shape mismatch in multiplication"

/-- Row-major chunked summation: `n` chunks of size `m`, summed
elementwise; entry `j` of the result is the sum of `xs[i*m+j]` over `i < n`. -/
def sumChunks (xs : List Flt) (m n : ℕ) : List Flt :=
  (List.range m).map (fun j => fsum ((List.range n).map (fun i => xs.getD (i * m + j) (some 0))))

/-- Modelled from the spec: `sum_leftmost_all_but k` on a single tensor —
"sum out all other leading dimensions, leaving only the shared ones":
the leftmost dimensions are summed out, the last `k` dimensions are kept;
a tensor with at most `k` dimensions is returned unchanged. -/
def Tensor.sum_leftmost_all_but (t : Tensor) (k : ℕ) : Tensor :=
  if k < t.shape.length then
    let kept := t.shape.drop (t.shape.length - k)
    ⟨kept, sumChunks t.data kept.prod (t.shape.take (t.shape.length - k)).prod, t.requiresGrad⟩
  else t

/-- Tiling of a flat data list up to `n` entries, replicating the list;
this is row-major broadcasting of a tensor whose shape is a suffix of the
target shape. -/
def tile (xs : List Flt) (n : ℕ) : List Flt :=
  (List.range n).map (fun i => xs.getD (i % xs.length) (some 0))

/-- Modelled from the spec: broadcasting of a tensor to a target shape, used
by `MultiViewTensor.contract` — legal exactly when the tensor's shape is a
suffix of the target shape ("suffix-compatible"); anything else is an error,
"not silently broadcast". -/
def Tensor.broadcastTo (t : Tensor) (target : List ℕ) : Except String Tensor :=
  if t.shape.length ≤ target.length ∧ t.shape = target.drop (target.length - t.shape.length) then
    .ok ⟨target, tile t.data target.prod, t.requiresGrad⟩
  else .error "shape incompatible with contraction target"

/-- Modelled from the spec: `MultiViewTensor`, "a mapping from shape
(ordered tuple of broadcast dimensions) to an accumulated tensor of that
shape"; represented as a list of tensors holding at most one entry per
shape. -/
abbrev MultiViewTensor := List Tensor

/-- The empty accumulator `MultiViewTensor()`. -/
def MultiViewTensor.empty : MultiViewTensor := []

/-- `MultiViewTensor(t)`: the accumulator holding the one entry `t`. -/
def MultiViewTensor.ofTensor (t : Tensor) : MultiViewTensor := [t]

/-- Modelled from the spec: adding one tensor into the accumulator — added
elementwise into the entry of the same shape when one exists, recorded as a
new entry otherwise. -/
def MultiViewTensor.addT (m : MultiViewTensor) (t : Tensor) : MultiViewTensor :=
  if m.any (fun u => u.shape = t.shape) then
    m.map (fun u => if u.shape = t.shape then Tensor.addSameShape u t else u)
  else m ++ [t]

/-- Modelled from the spec: `add` of another accumulator, "supporting
addition of same- or different-shaped terms". -/
def MultiViewTensor.add (m other : MultiViewTensor) : MultiViewTensor :=
  other.foldl MultiViewTensor.addT m

/-- Modelled from the spec: `sum_leftmost_all_but dim` on an accumulator —
each entry has its leading dimensions summed out, keeping the last `dim`
dimensions, and the results are re-accumulated (shapes may now coincide). -/
def MultiViewTensor.sum_leftmost_all_but (m : MultiViewTensor) (k : ℕ) : MultiViewTensor :=
  m.foldl (fun acc t => acc.addT (t.sum_leftmost_all_but k)) MultiViewTensor.empty

/-- Modelled from the spec: "a final contraction to a target shape by
summing over incompatible leading dimensions" — every entry with more
dimensions than the target has its extra leading dimensions summed out,
then each entry is broadcast-summed onto a zero tensor of exactly the
target shape; a shape that is not suffix-compatible with the target is an
error. -/
def MultiViewTensor.contract (m : MultiViewTensor) (target : List ℕ) : Except String Tensor :=
  m.foldlM
    (fun acc t =>
      let t' := if target.length < t.shape.length then t.sum_leftmost_all_but target.length else t
      (t'.broadcastTo target).map (fun tb => Tensor.addSameShape acc tb))
    ⟨target, List.replicate target.prod (some 0), false⟩

/-- The tag of a trace site record (`site["type"]`). -/
inductive SiteType
  | sample
  | param
  | other
deriving DecidableEq

/-- A site record of an execution trace.  `value` is the identity of the
site's value tensor (used for the parameter set of `param` sites);
`score_parts` is the 3-way decomposition `(guide_log_pdf,
score_function_term, entropy_term)`, where `none` models the
identically-zero placeholder (`is_identically_zero` in the source);
`bookkeeping` marks the subsampling/plate bookkeeping sites removed by
`prune_subsample_sites`. -/
structure Site where
  stype : SiteType
  is_observed : Bool
  value : ℕ
  log_pdf : Tensor
  batch_log_pdf : Tensor
  score_parts : Tensor × Option Tensor × Option Tensor
  bookkeeping : Bool
deriving DecidableEq

/-- First-match association lookup, the embedding of `trace.nodes[name]`. -/
def lookupSite : List (String × Site) → String → Option Site
  | [], _ => none
  | (n, s) :: rest, name => if n = name then some s else lookupSite rest name

/-- An execution trace: the ordered mapping from site name to site record,
together with the per-site plate iarange_stacks recorded in
`trace.graph["iarange_info"]["iarange_stacks"]`. -/
structure Trace where
  nodes : List (String × Site)
  iarange_stacks : String → List String

/-- `trace.nodes[name]`. -/
def Trace.lookup (t : Trace) (name : String) : Option Site := lookupSite t.nodes name

/-- A `KeyError`-style lift of an optional lookup into `Except`. -/
def ofOption : Option α → Except String α
  | some a => .ok a
  | none => .error "KeyError"

/-- Modelled from the spec: `n_compatible_indices` — from the plate-stack
metadata, "how many of their leading broadcast dimensions are compatible
(same plate)": the length of the longest common prefix of the two sites'
plate iarange_stacks. -/
def n_compatible_indices (iarange_stacks : String → List String) (name target_site : String) : ℕ :=
  commonPrefixLen (iarange_stacks name) (iarange_stacks target_site)
where
  commonPrefixLen : List String → List String → ℕ
    | a :: as, b :: bs => if a = b then commonPrefixLen as bs + 1 else 0
    | _, _ => 0

/-- `compute_site_log_r(model_trace, guide_trace, target_site, target_shape)`
from `src/pyro/infer/trace_elbo.py`.

For every sample site of the model trace the term starts from the site's
`batch_log_pdf`; for a non-observed site the guide site's log-density is
subtracted with the Python statement `log_r_term -= guide_log_pdf`, an
**in-place** torch subtraction that also overwrites the tensor stored as
this site's `batch_log_pdf` (the returned trace records this).  The term
is then detached, restricted to the leading dimensions shared with the
target site, and accumulated; the accumulator is finally contracted to
`target_shape`.  The result is the contracted tensor together with the
model trace as the call leaves it.

`computeStep` is the loop body, processing one node of the model trace;
the accumulator pairs the running `MultiViewTensor` with the updated site
records. -/
def computeStep (guide_trace : Trace) (iarange_stacks : String → List String)
    (target_site : String) (acc : MultiViewTensor × List (String × Site)) :
    String × Site → Except String (MultiViewTensor × List (String × Site))
  | (name, model_site) =>
  if model_site.stype = SiteType.sample then do
    let (log_r_term, model_site') ←
      if model_site.is_observed then
        pure (model_site.batch_log_pdf, model_site)
      else do
        let guide_site ← ofOption (guide_trace.lookup name)
        let guide_log_pdf := guide_site.score_parts.1
        let t ← Tensor.sub model_site.batch_log_pdf guide_log_pdf
        pure (t, { model_site with batch_log_pdf := t })
    let dims_to_keep := n_compatible_indices iarange_stacks name target_site
    let summed_log_r_term :=
      (MultiViewTensor.ofTensor log_r_term.detach).sum_leftmost_all_but dims_to_keep
    pure (acc.1.add summed_log_r_term, acc.2 ++ [(name, model_site')])
  else
    pure (acc.1, acc.2 ++ [(name, model_site)])

def compute_site_log_r (model_trace guide_trace : Trace) (target_site : String)
    (target_shape : List ℕ) : Except String (Tensor × Trace) := do
  let (log_r, new_nodes) ← model_trace.nodes.foldlM
    (computeStep guide_trace model_trace.iarange_stacks target_site)
    (MultiViewTensor.empty, [])
  let result ← log_r.contract target_shape
  pure (result, { model_trace with nodes := new_nodes })

/-- A Python value that is either a plain number or a zero-dimensional
tensor: the dynamic type of the accumulators `elbo_particle`,
`surrogate_elbo_particle` and `elbo` in `loss_and_grads` (they start as
the int `0` and become tensors once a tensor is added).  `isTensor`
records whether the value is a tensor; `requiresGrad` models
`getattr(x, "requires_grad", False)`, which is `False` on plain numbers. -/
structure SVal where
  val : Flt
  isTensor : Bool
  requiresGrad : Bool
deriving DecidableEq

/-- A plain Python number. -/
def SVal.num (q : Flt) : SVal := ⟨q, false, false⟩

/-- A zero-dimensional tensor as a dynamic Python value. -/
def SVal.ofTensor (t : Tensor) : SVal := ⟨t.item, true, t.requiresGrad⟩

/-- Dynamic addition: number + number is a number, anything involving a
tensor is a tensor; the autograd flag propagates. -/
def SVal.add (a b : SVal) : SVal :=
  ⟨fadd a.val b.val, a.isTensor || b.isTensor, a.requiresGrad || b.requiresGrad⟩

/-- Dynamic subtraction. -/
def SVal.sub (a b : SVal) : SVal :=
  ⟨fsub a.val b.val, a.isTensor || b.isTensor, a.requiresGrad || b.requiresGrad⟩

/-- Dynamic negation. -/
def SVal.neg (a : SVal) : SVal := ⟨fneg a.val, a.isTensor, a.requiresGrad⟩

/-- Dynamic division by a Python int. -/
def SVal.divn (a : SVal) (n : ℕ) : SVal := ⟨fdivn a.val n, a.isTensor, a.requiresGrad⟩

/-- The observable side effects of one `loss_and_grads` call:
`backward v` is a call `v.backward()`, `markActive ps` a call
`pyro.get_param_store().mark_params_active(ps)` with the set `ps` of
parameter-tensor identities. -/
inductive Event
  | backward (v : SVal)
  | markActive (ps : Finset ℕ)
deriving DecidableEq

/-- The estimator configuration: the class `Trace_ELBO(ELBO)`.
Modelled from the spec: the base-class constructor (not under `src/`)
stores `num_particles` and `max_iarange_nesting`; the spec describes no
further construction-time behaviour. -/
structure Trace_ELBO where
  num_particles : ℕ
  max_iarange_nesting : ℕ

/-- Modelled from the spec: `check_model_guide_match` — raises on
structural mismatch, i.e. when some sample site of the guide has no
matching model site name. -/
def check_model_guide_match (model_trace guide_trace : Trace) : Except String Unit :=
  if (guide_trace.nodes.filter (fun p => p.2.stype = SiteType.sample)).all
      (fun p => (model_trace.nodes.map Prod.fst).contains p.1) then
    .ok ()
  else .error "model-guide structural mismatch"

/-- Modelled from the spec: `prune_subsample_sites` — removes the sites
that exist purely for subsampling/plate bookkeeping. -/
def prune_subsample_sites (t : Trace) : Trace :=
  { t with nodes := t.nodes.filter (fun p => !p.2.bookkeeping) }

/-- Modelled from the spec: `check_site_shape` — raises when a site's
batch shape implies more nested plates than the declared maximum. -/
def check_site_shape (site : Site) (max_iarange_nesting : ℕ) : Except String Unit :=
  if site.batch_log_pdf.shape.length ≤ max_iarange_nesting then .ok ()
  else .error "site shape exceeds declared iarange nesting"

/-- The per-trace shape-validation loop of `_get_traces`: checks every
sample site. -/
def checkSampleShapes (t : Trace) (max_iarange_nesting : ℕ) : Except String Unit :=
  t.nodes.foldlM
    (fun _ p =>
      if p.2.stype = SiteType.sample then check_site_shape p.2 max_iarange_nesting
      else .ok ())
    ()

/-- The body of `Trace_ELBO._get_traces` for one particle, given the raw
`(model_trace, guide_trace)` pair produced by running the guide and
replaying the model against it (the runs themselves belong to the trace
engine, outside this core): the structural check on the raw pair, the
pruning of bookkeeping sites, and the shape validation of every sample
site of both traces.  `compute_batch_log_pdf` and `compute_score_parts`
populate fields that the embedded `Site` records already carry. -/
def Trace_ELBO.get_trace_pair (e : Trace_ELBO) (pair : Trace × Trace) :
    Except String (Trace × Trace) := do
  let (model_trace0, guide_trace0) := pair
  check_model_guide_match model_trace0 guide_trace0
  let guide_trace := prune_subsample_sites guide_trace0
  let model_trace := prune_subsample_sites model_trace0
  checkSampleShapes model_trace e.max_iarange_nesting
  checkSampleShapes guide_trace e.max_iarange_nesting
  pure (model_trace, guide_trace)

/-- Modelled from the spec: `trace.log_pdf()` — "returns the total scalar
log-density", the sum of the `log_pdf` entries of the trace's sample
sites, as a plain value. -/
def Trace.log_pdf (t : Trace) : Flt :=
  fsum ((t.nodes.filter (fun p => p.2.stype = SiteType.sample)).map
    (fun p => p.2.log_pdf.item))

/-- `Trace_ELBO.loss` from the source: draws `num_particles` trace pairs
(through `_get_traces`, here fed by the ambient sampler `s` giving the raw
pair of particle `i`), accumulates
`(model_trace.log_pdf() - guide_trace.log_pdf()).item() / num_particles`,
negates, and returns the loss together with whether the NaN warning was
emitted.  `lossStep` is the per-particle loop body. -/
def Trace_ELBO.lossStep (e : Trace_ELBO) (s : ℕ → Trace × Trace) (elbo : Flt)
    (i : ℕ) : Except String Flt := do
  let (model_trace, guide_trace) ← e.get_trace_pair (s i)
  let elbo_particle := fsub model_trace.log_pdf guide_trace.log_pdf
  pure (fadd elbo (fdivn elbo_particle e.num_particles))

def Trace_ELBO.loss (e : Trace_ELBO) (s : ℕ → Trace × Trace) :
    Except String (Flt × Bool) := do
  let elbo ← (List.range e.num_particles).foldlM (e.lossStep s) (some 0 : Flt)
  let loss := fneg elbo
  pure (loss, is_nan loss)

/-- The per-site body of the `loss_and_grads` loop (source lines 93–111),
processing one node of the model trace.  The running state is
`(elbo_particle, surrogate_elbo_particle, current model trace)`; the
model trace is threaded because `compute_site_log_r` overwrites
`batch_log_pdf` entries in place.  The loop reads each site's `log_pdf`,
`type` and `is_observed` fields, which no call mutates, so reading them
from the iterated node is faithful. -/
def lagStep (guide_trace : Trace) :
    SVal × SVal × Trace → String × Site → Except String (SVal × SVal × Trace)
  | (elbo_particle, surrogate_elbo_particle, cur), (name, model_site) =>
  if model_site.stype = SiteType.sample then
    let model_log_pdf := model_site.log_pdf
    if model_site.is_observed then
      pure (elbo_particle.add (SVal.num model_log_pdf.item),
            surrogate_elbo_particle.add (SVal.ofTensor model_log_pdf), cur)
    else do
      let guide_site ← ofOption (guide_trace.lookup name)
      let guide_log_pdf := guide_site.score_parts.1
      let score_function_term := guide_site.score_parts.2.1
      let entropy_term := guide_site.score_parts.2.2
      let elbo_particle :=
        (elbo_particle.add (SVal.ofTensor model_log_pdf)).sub
          (SVal.ofTensor guide_log_pdf.tsum)
      let surrogate_elbo_particle :=
        surrogate_elbo_particle.add (SVal.ofTensor model_log_pdf)
      let surrogate_elbo_particle :=
        match entropy_term with
        | none => surrogate_elbo_particle
        | some ent => surrogate_elbo_particle.sub (SVal.ofTensor ent.tsum)
      match score_function_term with
      | none => pure (elbo_particle, surrogate_elbo_particle, cur)
      | some sf => do
          let (log_r_site, cur') ← compute_site_log_r cur guide_trace name guide_log_pdf.shape
          let prod ← Tensor.mul log_r_site sf
          pure (elbo_particle, surrogate_elbo_particle.add (SVal.ofTensor prod.tsum), cur')
  else
    pure (elbo_particle, surrogate_elbo_particle, cur)

/-- The set of trainable parameters of one particle (source lines
116–119): the distinct `value` identities of the `param`-type sites of
both traces. -/
def trainableParams (model_trace guide_trace : Trace) : Finset ℕ :=
  ((model_trace.nodes ++ guide_trace.nodes).filterMap
    (fun p => if p.2.stype = SiteType.param then some p.2.value else none)).toFinset

/-- One particle of `loss_and_grads`: validate and prepare the trace pair,
run the per-site loop over the model trace, and collect the trainable
parameters.  Returns `(elbo_particle, surrogate_elbo_particle,
trainable_params)`. -/
def Trace_ELBO.particleRun (e : Trace_ELBO) (pair : Trace × Trace) :
    Except String (SVal × SVal × Finset ℕ) := do
  let (model_trace, guide_trace) ← e.get_trace_pair pair
  let (elbo_particle, surrogate_elbo_particle, mt') ←
    model_trace.nodes.foldlM (lagStep guide_trace)
      (SVal.num (some 0), SVal.num (some 0), model_trace)
  pure (elbo_particle, surrogate_elbo_particle, trainableParams mt' guide_trace)

/-- The tail of one particle of `loss_and_grads` (source lines 121–124):
when the particle has trainable parameters and the surrogate can produce
gradients, one backward pass runs on the surrogate negated and rescaled
by `1/num_particles`, and the trainable parameters are marked active;
otherwise nothing happens. -/
def particleEvents (num_particles : ℕ) (surrogate : SVal) (params : Finset ℕ) : List Event :=
  if params ≠ ∅ ∧ surrogate.requiresGrad = true then
    [Event.backward ((surrogate.neg).divn num_particles), Event.markActive params]
  else []

/-- The value and warning flag returned by `loss_and_grads`, and the
ordered list of backward/mark-active events it performed. -/
structure LagResult where
  loss : SVal
  warned : Bool
  events : List Event
deriving DecidableEq

/-- `Trace_ELBO.loss_and_grads` from the source: per particle, run the
per-site loop, fold `elbo_particle / num_particles` into the running
`elbo`, and perform the backward/mark-active tail; finally negate the
accumulated `elbo` into the returned loss, warning on NaN.
`lagParticleStep` is the per-particle loop body. -/
def Trace_ELBO.lagParticleStep (e : Trace_ELBO) (s : ℕ → Trace × Trace)
    (acc : SVal × List Event) (i : ℕ) : Except String (SVal × List Event) := do
  let (elbo_particle, surrogate_elbo_particle, params) ← e.particleRun (s i)
  pure (acc.1.add (elbo_particle.divn e.num_particles),
        acc.2 ++ particleEvents e.num_particles surrogate_elbo_particle params)

def Trace_ELBO.loss_and_grads (e : Trace_ELBO) (s : ℕ → Trace × Trace) :
    Except String LagResult := do
  let (elbo, events) ← (List.range e.num_particles).foldlM (e.lagParticleStep s)
    (SVal.num (some 0), ([] : List Event))
  let loss := elbo.neg
  pure ⟨loss, is_nan loss.val, events⟩

/-!
## Specification-side definitions

Written from the spec's words, to be compared with the source-embedded
definitions above.
-/

/-- The spec's per-site "log ratio" term (§4.1): the site's
`batch_log_pdf`; if the site is not observed, minus the corresponding
guide site's log-density. -/
def siteLogRTerm (guide_trace : Trace) (name : String) (site : Site) :
    Except String Tensor :=
  if site.is_observed then .ok site.batch_log_pdf
  else do
    let guide_site ← ofOption (guide_trace.lookup name)
    Tensor.sub site.batch_log_pdf guide_site.score_parts.1

/-- One step of the spec's accumulation (§4.1): detach the site's
log-ratio term, restrict it to the leading broadcast dimensions shared
with the target site, and accumulate. -/
def specStep (guide_trace : Trace) (iarange_stacks : String → List String)
    (target_site : String) (acc : MultiViewTensor) (p : String × Site) :
    Except String MultiViewTensor := do
  let term ← siteLogRTerm guide_trace p.1 p.2
  pure (acc.add ((MultiViewTensor.ofTensor term.detach).sum_leftmost_all_but
    (n_compatible_indices iarange_stacks p.1 target_site)))

/-- The spec's description of the site log-ratio computation, over **all**
sample sites of the model trace: accumulate every sample site's detached,
dimension-restricted log-ratio term and contract to `target_shape`. -/
def specSiteLogR (model_trace guide_trace : Trace) (target_site : String)
    (target_shape : List ℕ) : Except String Tensor := do
  let mvt ← (model_trace.nodes.filter (fun p => p.2.stype = SiteType.sample)).foldlM
    (specStep guide_trace model_trace.iarange_stacks target_site)
    MultiViewTensor.empty
  mvt.contract target_shape

/-- The claim's reading of the site log-ratio computation: the same
accumulation restricted to the sample sites **other than** the target
site. -/
def specSiteLogROthers (model_trace guide_trace : Trace) (target_site : String)
    (target_shape : List ℕ) : Except String Tensor := do
  let mvt ← (model_trace.nodes.filter
      (fun p => p.2.stype = SiteType.sample ∧ p.1 ≠ target_site)).foldlM
    (specStep guide_trace model_trace.iarange_stacks target_site)
    MultiViewTensor.empty
  mvt.contract target_shape

/-- The spec's description (§4.4) of what one non-observed sample site
adds to the surrogate accumulator: the site's model log-density, minus
the summed entropy term whenever the guide provides one, plus — whenever
the guide supplies a nonzero score-function term — the summed product of
that term with the site's log-ratio computed by `compute_site_log_r`
using the guide log-density's shape as the target shape.  Returns the
delta together with the model trace as `compute_site_log_r` leaves it. -/
def specSurrogateDelta (cur guide_trace : Trace) (name : String) (site : Site) :
    Except String (SVal × Trace) := do
  let guide_site ← ofOption (guide_trace.lookup name)
  let guide_log_pdf := guide_site.score_parts.1
  let score_function_term := guide_site.score_parts.2.1
  let entropy_term := guide_site.score_parts.2.2
  let d := SVal.ofTensor site.log_pdf
  let d :=
    match entropy_term with
    | none => d
    | some ent => d.sub (SVal.ofTensor ent.tsum)
  match score_function_term with
  | none => pure (d, cur)
  | some sf => do
      let (log_r_site, cur') ← compute_site_log_r cur guide_trace name guide_log_pdf.shape
      let prod ← Tensor.mul log_r_site sf
      pure (d.add (SVal.ofTensor prod.tsum), cur')

/-- The spec's description (§4.3) of the loss: the negation of the
average over the particles of the per-particle difference between the
model trace's and the guide trace's total log-density, each taken as a
plain number. -/
def specLoss (num_particles : ℕ) (p : ℕ → Trace × Trace) : Flt :=
  fneg (fdivn (fsum ((List.range num_particles).map
    (fun i => fsub (p i).1.log_pdf (p i).2.log_pdf))) num_particles)

/-!
## Concrete example traces

Small inputs used by the counterexamples and the witnesses.
-/

/-- A zero-dimensional constant tensor outside the autograd graph. -/
def tS (q : ℚ) : Tensor := ⟨[], [some q], false⟩

/-- A zero-dimensional constant tensor that requires gradients. -/
def tG (q : ℚ) : Tensor := ⟨[], [some q], true⟩

/-- A zero-dimensional NaN tensor. -/
def tNaN : Tensor := ⟨[], [none], false⟩

/-- A non-observed model sample site with the given log-densities. -/
def mkLatent (lp bp : Tensor) : Site :=
  ⟨SiteType.sample, false, 0, lp, bp, (tS 0, none, none), false⟩

/-- An observed model sample site with the given log-densities. -/
def mkObserved (lp bp : Tensor) : Site :=
  ⟨SiteType.sample, true, 0, lp, bp, (tS 0, none, none), false⟩

/-- A guide sample site with the given total/batch log-density and score
parts. -/
def mkGuide (lp glp : Tensor) (sf ent : Option Tensor) : Site :=
  ⟨SiteType.sample, false, 0, lp, glp, (glp, sf, ent), false⟩

/-- A `param`-type site with the given parameter-tensor identity. -/
def mkParam (id : ℕ) : Site :=
  ⟨SiteType.param, false, id, tS 0, tS 0, (tS 0, none, none), false⟩

/-- Model trace with two latent sample sites `a` (batch log-pdf 5) and `b`
(batch log-pdf 7); no plates. -/
def exM1 : Trace :=
  ⟨[("a", mkLatent (tS 5) (tS 5)), ("b", mkLatent (tS 7) (tS 7))], fun _ => []⟩

/-- Guide trace matching `exM1`: guide log-pdf 2 at `a` and 1 at `b`. -/
def exG1 : Trace :=
  ⟨[("a", mkGuide (tS 2) (tS 2) none none), ("b", mkGuide (tS 1) (tS 1) none none)],
   fun _ => []⟩

/-- One-latent-site model trace (log-pdf 3) paired below with `exG2`. -/
def exM2 : Trace := ⟨[("x", mkLatent (tS 3) (tS 3))], fun _ => []⟩

/-- Guide trace matching `exM2` (guide log-pdf 1 at `x`). -/
def exG2 : Trace := ⟨[("x", mkGuide (tS 1) (tS 1) none none)], fun _ => []⟩

/-- Model trace with an observed site `y` (log-pdf 4) and a latent site
`x` (log-pdf 3). -/
def exM3 : Trace :=
  ⟨[("y", mkObserved (tS 4) (tS 4)), ("x", mkLatent (tS 3) (tS 3))], fun _ => []⟩

/-- The latent site used by the `lagStep` witness: model log-pdf 3, batch
log-pdf 5. -/
def exSite4 : Site := mkLatent (tS 3) (tS 5)

/-- Model trace holding only `exSite4`. -/
def exM4 : Trace := ⟨[("x", exSite4)], fun _ => []⟩

/-- Guide trace for the `lagStep` witness: guide log-pdf 1, score-function
term 2, entropy term 4 at `x`. -/
def exG4 : Trace :=
  ⟨[("x", mkGuide (tS 1) (tS 1) (some (tS 2)) (some (tS 4)))], fun _ => []⟩

/-- Model trace with a `param` site (identity 11) and an observed sample
site whose log-pdf requires gradients. -/
def exM5 : Trace :=
  ⟨[("p", mkParam 11), ("y", mkObserved (tG 4) (tS 4))], fun _ => []⟩

/-- The empty guide trace. -/
def exGEmpty : Trace := ⟨[], fun _ => []⟩

/-- Model trace whose observed site has a NaN log-pdf. -/
def exMNaN : Trace := ⟨[("y", mkObserved tNaN (tS 0))], fun _ => []⟩

/-- Guide trace whose guide log-density requires gradients (its site `x`
matches the latent site of `exM2`). -/
def exGGrad : Trace := ⟨[("x", mkGuide (tG 1) (tG 1) none none)], fun _ => []⟩

/-- `exM1` as `compute_site_log_r exM1 exG1 "a" []` leaves it: both
latent sites' `batch_log_pdf` overwritten by the in-place subtraction. -/
def exM1after : Trace :=
  ⟨[("a", { mkLatent (tS 5) (tS 5) with batch_log_pdf := ⟨[], [some 3], false⟩ }),
    ("b", { mkLatent (tS 7) (tS 7) with batch_log_pdf := ⟨[], [some 6], false⟩ })],
   exM1.iarange_stacks⟩

/-- `exM4` as the `lagStep` of its single site leaves it: `batch_log_pdf`
overwritten by `compute_site_log_r`'s in-place subtraction. -/
def exM4after : Trace :=
  ⟨[("x", { exSite4 with batch_log_pdf := ⟨[], [some 4], false⟩ })],
   exM4.iarange_stacks⟩

/-- The total guide log-density at one site of the guide trace: the sum
of the batch-level guide log-density recorded in that site's
`score_parts` (NaN when the site is absent). -/
def guideLogPdfSum (guide_trace : Trace) (name : String) : Flt :=
  match guide_trace.lookup name with
  | some g => fsum g.score_parts.1.data
  | none => none

/-- The plain ELBO contribution of one model-trace node, per the spec
(§4.4): an observed sample site contributes `model_log_pdf`, another
sample site contributes `model_log_pdf - sum(guide_log_pdf)`, anything
else contributes nothing. -/
def elboContribOne (guide_trace : Trace) (p : String × Site) : Flt :=
  if p.2.stype = SiteType.sample then
    if p.2.is_observed then p.2.log_pdf.item
    else fsub p.2.log_pdf.item (guideLogPdfSum guide_trace p.1)
  else some 0

/-- The plain ELBO contribution of a list of model-trace nodes: the sum
of the per-node contributions. -/
def elboParticleSpec (guide_trace : Trace) (nodes : List (String × Site)) : Flt :=
  fsum (nodes.map (elboContribOne guide_trace))

/-!
## Basic lemmas about the scalar algebra
-/

theorem fadd_zero (a : Flt) : fadd a (some 0) = a := by
  cases a <;> simp [fadd]

theorem zero_fadd (a : Flt) : fadd (some 0) a = a := by
  cases a <;> simp [fadd]

theorem fadd_assoc (a b c : Flt) : fadd (fadd a b) c = fadd a (fadd b c) := by
  cases a <;> cases b <;> cases c <;> simp [fadd] <;> ring

theorem fadd_comm (a b : Flt) : fadd a b = fadd b a := by
  cases a <;> cases b <;> simp [fadd] <;> ring

theorem fneg_fadd (a b : Flt) : fneg (fadd a b) = fadd (fneg a) (fneg b) := by
  cases a <;> cases b <;> simp [fadd, fneg] <;> ring

theorem fdivn_fadd (a b : Flt) (n : ℕ) :
    fdivn (fadd a b) n = fadd (fdivn a n) (fdivn b n) := by
  cases a <;> cases b <;> simp [fadd, fdivn] <;> ring

theorem fdivn_zero_val (n : ℕ) : fdivn (some 0) n = some 0 := by
  simp [fdivn]

theorem fdivn_one (a : Flt) : fdivn a 1 = a := by
  cases a <;> simp [fdivn]

theorem foldl_fadd_eq (l : List Flt) : ∀ c : Flt, l.foldl fadd c = fadd c (fsum l) := by
  induction l with
  | nil => intro c; simp [fsum, fadd_zero]
  | cons a t ih =>
      intro c
      simp only [List.foldl_cons, fsum, ih (fadd c a), ih (fadd (some 0) a)]
      rw [zero_fadd, fadd_assoc]

theorem fsum_nil : fsum [] = some 0 := rfl

theorem fsum_cons (a : Flt) (l : List Flt) : fsum (a :: l) = fadd a (fsum l) := by
  show List.foldl fadd (fadd (some 0) a) l = fadd a (fsum l)
  rw [foldl_fadd_eq l _, zero_fadd]

theorem fsum_perm {l₁ l₂ : List Flt} (h : l₁.Perm l₂) : fsum l₁ = fsum l₂ := by
  induction h with
  | nil => rfl
  | cons a _ ih => rw [fsum_cons, fsum_cons, ih]
  | swap a b l =>
      rw [fsum_cons, fsum_cons, fsum_cons, fsum_cons, ← fadd_assoc, ← fadd_assoc,
        fadd_comm b a]
  | trans _ _ ih₁ ih₂ => rw [ih₁, ih₂]

theorem range_zero_eq : List.range 0 = [] := rfl

theorem range_one_eq : List.range 1 = [0] := rfl

theorem range_two_eq : List.range 2 = [0, 1] := rfl

/-!
## Claim C8 — num_particles = 0
-/

/-- Counterexample to C8 as stated: configuring the estimator with
`num_particles = 0` raises nothing — construction succeeds and the first
call to `loss` silently returns `-0.0` (no particle is drawn, so no
division by zero occurs and no NaN is produced), instead of the expected
configuration error. -/
theorem zero_particles_silently_returns_cex :
    Trace_ELBO.loss ⟨0, 0⟩ (fun _ => (exM2, exG2)) = .ok (some 0, false) := by
  norm_num [Trace_ELBO.loss, range_zero_eq, List.foldlM, fneg, is_nan,
    Except.pure, Pure.pure, Bind.bind, Except.bind]

/-- C8 amended: with `num_particles = 0`, no configuration error is
raised at construction or at first use; `loss` silently returns a loss of
`-0.0` with no warning, and `loss_and_grads` does the same, performing no
backward pass. -/
theorem zero_particles_loss_is_zero (s : ℕ → Trace × Trace) (m : ℕ) :
    Trace_ELBO.loss ⟨0, m⟩ s = .ok (some 0, false) ∧
    Trace_ELBO.loss_and_grads ⟨0, m⟩ s = .ok ⟨⟨some 0, false, false⟩, false, []⟩ := by
  constructor
  · norm_num [Trace_ELBO.loss, range_zero_eq, List.foldlM, fneg, is_nan,
      Except.pure, Pure.pure, Bind.bind, Except.bind]
  · norm_num [Trace_ELBO.loss_and_grads, range_zero_eq, List.foldlM, fneg, is_nan,
      SVal.num, SVal.neg, Except.pure, Pure.pure, Bind.bind, Except.bind]

/-!
## Claim C10 — the dynamic type of the value loss_and_grads returns
-/

/-- C10 failing input: on a model trace with one non-observed sample site
(`exM2`) and a guide whose log-density requires gradients (`exGGrad`),
`loss_and_grads` returns its loss as a gradient-tracked tensor, not as a
plain number — on the non-observed branch `elbo_particle` is accumulated
as `elbo_particle + model_log_pdf - guide_log_pdf.sum()` without
`.item()`, so the running `elbo` and the returned `loss = -elbo` become
tensors carrying `requires_grad`, contradicting the documented
`:rtype: float`. -/
theorem loss_and_grads_returns_grad_tensor :
    (Trace_ELBO.loss_and_grads ⟨1, 0⟩ (fun _ => (exM2, exGGrad))).map
      (fun r => (r.loss.isTensor, r.loss.requiresGrad)) = .ok (true, true) := by
  norm_num [Trace_ELBO.loss_and_grads, Trace_ELBO.lagParticleStep,
    Trace_ELBO.particleRun, Trace_ELBO.get_trace_pair, lagStep, particleEvents,
    trainableParams, check_model_guide_match, prune_subsample_sites,
    check_site_shape, checkSampleShapes, Trace.lookup, lookupSite, ofOption,
    range_one_eq, List.foldlM, Except.bind, Bind.bind, Except.pure, Pure.pure,
    Except.map, Functor.map, exM2, exGGrad, mkLatent, mkGuide, tS, tG,
    Tensor.item, Tensor.tsum, SVal.num, SVal.ofTensor, SVal.add, SVal.sub,
    SVal.neg, SVal.divn, fadd, fneg, fsub, fdivn, fsum, is_nan]

/-!
## Claim C2 — traces are not read-only
-/

/-- C2 failing input: on `exM1`/`exG1`, site `a` enters
`compute_site_log_r` with `batch_log_pdf = 5`; the call returns with that
site's `batch_log_pdf` overwritten to `3 = 5 - 2` — the Python statement
`log_r_term -= guide_log_pdf` subtracts in place on the very tensor
stored in the model trace, so the model trace is mutated, contradicting
the claim that traces are read-only for this core. -/
theorem compute_site_log_r_mutates_trace :
    (exM1.lookup "a").map (fun s => s.batch_log_pdf) = some ⟨[], [some 5], false⟩ ∧
    (compute_site_log_r exM1 exG1 "a" []).map
      (fun p => (p.2.lookup "a").map (fun s => s.batch_log_pdf)) =
      .ok (some ⟨[], [some 3], false⟩) := by
  constructor
  · norm_num [exM1, mkLatent, tS, Trace.lookup, lookupSite]
  · norm_num +decide [compute_site_log_r, computeStep, exM1, exG1, mkLatent, mkGuide, tS,
      Trace.lookup, lookupSite, ofOption, n_compatible_indices,
      n_compatible_indices.commonPrefixLen, MultiViewTensor.empty,
      MultiViewTensor.ofTensor, MultiViewTensor.addT, MultiViewTensor.add,
      MultiViewTensor.sum_leftmost_all_but, MultiViewTensor.contract,
      Tensor.sub, Tensor.detach, Tensor.sum_leftmost_all_but, Tensor.broadcastTo,
      Tensor.addSameShape, sumChunks, tile, List.foldlM, List.foldl,
      Except.bind, Bind.bind, Except.pure, Pure.pure, Except.map, Functor.map,
      fadd, fneg, fsub, fsum, range_one_eq]

/-!
## Claim C1 — which sites the log-ratio sums over
-/

/-- Counterexample to C1 as stated: on `exM1`/`exG1` with target site `a`
and target shape `[]`, `compute_site_log_r` returns `9 = (5-2) + (7-1)`,
the sum of the log-ratio terms of **all** sample sites including the
target itself, while the sum over the sites other than the target (the
claim's reading, computed by `specSiteLogROthers`) is `6 = 7-1`. -/
theorem compute_site_log_r_includes_target_cex :
    (compute_site_log_r exM1 exG1 "a" []).map Prod.fst = .ok ⟨[], [some 9], false⟩ ∧
    specSiteLogROthers exM1 exG1 "a" [] = .ok ⟨[], [some 6], false⟩ ∧
    (Tensor.mk [] [some 9] false) ≠ ⟨[], [some 6], false⟩ := by
  refine ⟨?_, ?_, by norm_num [Tensor.mk.injEq]⟩
  · norm_num +decide [compute_site_log_r, computeStep, exM1, exG1, mkLatent, mkGuide, tS,
      Trace.lookup, lookupSite, ofOption, n_compatible_indices,
      n_compatible_indices.commonPrefixLen, MultiViewTensor.empty,
      MultiViewTensor.ofTensor, MultiViewTensor.addT, MultiViewTensor.add,
      MultiViewTensor.sum_leftmost_all_but, MultiViewTensor.contract,
      Tensor.sub, Tensor.detach, Tensor.sum_leftmost_all_but, Tensor.broadcastTo,
      Tensor.addSameShape, sumChunks, tile, List.foldlM, List.foldl,
      Except.bind, Bind.bind, Except.pure, Pure.pure, Except.map, Functor.map,
      fadd, fneg, fsub, fsum, range_one_eq]
  · norm_num +decide [specSiteLogROthers, specStep, siteLogRTerm, exM1, exG1, mkLatent,
      mkGuide, tS, Trace.lookup, lookupSite, ofOption, n_compatible_indices,
      n_compatible_indices.commonPrefixLen, MultiViewTensor.empty,
      MultiViewTensor.ofTensor, MultiViewTensor.addT, MultiViewTensor.add,
      MultiViewTensor.sum_leftmost_all_but, MultiViewTensor.contract,
      Tensor.sub, Tensor.detach, Tensor.sum_leftmost_all_but, Tensor.broadcastTo,
      Tensor.addSameShape, sumChunks, tile, List.foldlM, List.foldl, List.filter,
      Except.bind, Bind.bind, Except.pure, Pure.pure, Except.map, Functor.map,
      fadd, fneg, fsub, fsum, range_one_eq]

/-!
## Claim C7 — NaN losses warn, do not raise, and are returned
-/

/-- C7: whenever `loss` or `loss_and_grads` returns at all and the
computed loss is NaN, the NaN warning was emitted and the NaN value
itself is what the caller receives; the NaN check never turns into an
exception. -/
theorem nan_loss_warns_and_returns (e : Trace_ELBO) (s : ℕ → Trace × Trace) :
    (∀ v w, e.loss s = .ok (v, w) → is_nan v = true → w = true) ∧
    (∀ r : LagResult, e.loss_and_grads s = .ok r → is_nan r.loss.val = true →
      r.warned = true) := by
  constructor
  · intro v w h hnan
    unfold Trace_ELBO.loss at h
    cases hf : (List.range e.num_particles).foldlM (e.lossStep s) (some 0 : Flt) with
    | error msg => rw [hf] at h; simp [Bind.bind, Except.bind] at h
    | ok elbo =>
        rw [hf] at h
        simp only [Bind.bind, Except.bind, Pure.pure, Except.pure, Except.ok.injEq,
          Prod.mk.injEq] at h
        rw [← h.2, h.1]
        exact hnan
  · intro r h hnan
    unfold Trace_ELBO.loss_and_grads at h
    cases hf : (List.range e.num_particles).foldlM (e.lagParticleStep s)
        (SVal.num (some 0), ([] : List Event)) with
    | error msg => rw [hf] at h; simp [Bind.bind, Except.bind] at h
    | ok acc =>
        rw [hf] at h
        simp only [Bind.bind, Except.bind, Pure.pure, Except.pure, Except.ok.injEq] at h
        rw [← h] at hnan ⊢
        exact hnan

/-- Concrete NaN run for the C7 theorem: one observed site with a NaN
log-density makes both `loss` and `loss_and_grads` return NaN with the
warning flag set, as the theorem then confirms. -/
theorem nan_loss_warns_and_returns_witness :
    Trace_ELBO.loss ⟨1, 0⟩ (fun _ => (exMNaN, exGEmpty)) = .ok (none, true) ∧
    Trace_ELBO.loss_and_grads ⟨1, 0⟩ (fun _ => (exMNaN, exGEmpty)) =
      .ok ⟨⟨none, false, false⟩, true, []⟩ ∧
    (true : Bool) = true := by
  have h1 : Trace_ELBO.loss ⟨1, 0⟩ (fun _ => (exMNaN, exGEmpty)) = .ok (none, true) := by
    norm_num +decide [Trace_ELBO.loss, Trace_ELBO.lossStep, Trace_ELBO.get_trace_pair,
      check_model_guide_match, prune_subsample_sites, check_site_shape,
      checkSampleShapes, Trace.log_pdf, Tensor.item, exMNaN, exGEmpty, mkObserved,
      tNaN, tS, range_one_eq, List.foldlM, Except.bind, Bind.bind, Except.pure,
      Pure.pure, fadd, fneg, fsub, fdivn, fsum, is_nan]
  refine ⟨h1, ?_, (nan_loss_warns_and_returns ⟨1, 0⟩ (fun _ => (exMNaN, exGEmpty))).1
    none true h1 rfl⟩
  norm_num +decide [Trace_ELBO.loss_and_grads, Trace_ELBO.lagParticleStep,
    Trace_ELBO.particleRun, Trace_ELBO.get_trace_pair, lagStep, particleEvents,
    trainableParams, check_model_guide_match, prune_subsample_sites,
    check_site_shape, checkSampleShapes, Trace.lookup, lookupSite, ofOption,
    exMNaN, exGEmpty, mkObserved, tNaN, tS, range_one_eq, List.foldlM,
    Except.bind, Bind.bind, Except.pure, Pure.pure, Tensor.item, Tensor.tsum,
    SVal.num, SVal.ofTensor, SVal.add, SVal.sub, SVal.neg, SVal.divn,
    fadd, fneg, fsub, fdivn, fsum, is_nan]

/-!
## Claim C9 — the log-ratio is detached from the gradient graph
-/

/-- Every entry of the accumulator is outside the autograd graph. -/
def MVTNoGrad (m : MultiViewTensor) : Prop := ∀ t ∈ m, t.requiresGrad = false

theorem sum_leftmost_all_but_rg (t : Tensor) (k : ℕ) :
    (t.sum_leftmost_all_but k).requiresGrad = t.requiresGrad := by
  unfold Tensor.sum_leftmost_all_but
  split <;> rfl

theorem addT_nograd {m : MultiViewTensor} {t : Tensor} (hm : MVTNoGrad m)
    (ht : t.requiresGrad = false) : MVTNoGrad (m.addT t) := by
  unfold MultiViewTensor.addT
  split
  · intro u hu
    rcases List.mem_map.1 hu with ⟨w, hw, rfl⟩
    by_cases hsh : w.shape = t.shape
    · simp only [hsh, if_true, Tensor.addSameShape, hm w hw, ht, Bool.or_self]
    · simp only [hsh, if_false]
      exact hm w hw
  · intro u hu
    rcases List.mem_append.1 hu with h | h
    · exact hm u h
    · rw [List.mem_singleton.1 h]
      exact ht

theorem add_nograd {o : MultiViewTensor} :
    ∀ {m : MultiViewTensor}, MVTNoGrad m → MVTNoGrad o → MVTNoGrad (m.add o) := by
  induction o with
  | nil => intro m hm _; exact hm
  | cons t rest ih =>
      intro m hm ho
      have ht : t.requiresGrad = false := ho t (List.mem_cons_self t rest)
      have hrest : MVTNoGrad rest := fun u hu => ho u (List.mem_cons_of_mem t hu)
      exact ih (addT_nograd hm ht) hrest

theorem mvt_sum_leftmost_all_but_nograd {m : MultiViewTensor} (k : ℕ)
    (hm : MVTNoGrad m) : MVTNoGrad (m.sum_leftmost_all_but k) := by
  unfold MultiViewTensor.sum_leftmost_all_but
  suffices h : ∀ (l acc : MultiViewTensor), MVTNoGrad acc → (∀ t ∈ l, t.requiresGrad = false) →
      MVTNoGrad (l.foldl (fun acc t => acc.addT (t.sum_leftmost_all_but k)) acc) by
    exact h m MultiViewTensor.empty (fun t ht => absurd ht (List.not_mem_nil t)) hm
  intro l
  induction l with
  | nil => intro acc hacc _; exact hacc
  | cons t rest ih =>
      intro acc hacc hl
      have ht : (t.sum_leftmost_all_but k).requiresGrad = false := by
        rw [sum_leftmost_all_but_rg]
        exact hl t (List.mem_cons_self t rest)
      exact ih _ (addT_nograd hacc ht) (fun u hu => hl u (List.mem_cons_of_mem t hu))

theorem contract_nograd {m : MultiViewTensor} {target : List ℕ} {t : Tensor}
    (hm : MVTNoGrad m) (h : m.contract target = .ok t) : t.requiresGrad = false := by
  unfold MultiViewTensor.contract at h
  suffices haux : ∀ (l : MultiViewTensor) (acc : Tensor), (∀ u ∈ l, u.requiresGrad = false) →
      acc.requiresGrad = false →
      l.foldlM
        (fun acc t =>
          let t' := if target.length < t.shape.length then t.sum_leftmost_all_but target.length else t
          (t'.broadcastTo target).map (fun tb => Tensor.addSameShape acc tb)) acc = .ok t →
      t.requiresGrad = false by
    exact haux m _ hm rfl h
  intro l
  induction l with
  | nil =>
      intro acc _ hacc h
      simp only [List.foldlM, Pure.pure, Except.pure, Except.ok.injEq] at h
      rw [← h]
      exact hacc
  | cons u rest ih =>
      intro acc hl hacc h
      simp only [List.foldlM] at h
      set u' := if target.length < u.shape.length then u.sum_leftmost_all_but target.length else u
        with hu'
      have hu'rg : u'.requiresGrad = false := by
        rw [hu']
        split
        · rw [sum_leftmost_all_but_rg]
          exact hl u (List.mem_cons_self u rest)
        · exact hl u (List.mem_cons_self u rest)
      cases hb : u'.broadcastTo target with
      | error msg =>
          rw [hb] at h
          simp [Except.map, Bind.bind, Except.bind] at h
      | ok tb =>
          have htb : tb.requiresGrad = false := by
            unfold Tensor.broadcastTo at hb
            split at hb
            · cases hb
              exact hu'rg
            · cases hb
          rw [hb] at h
          simp only [Except.map, Bind.bind, Except.bind] at h
          exact ih _ (fun v hv => hl v (List.mem_cons_of_mem u hv)) (by
            simp [Tensor.addSameShape, hacc, htb]) h

theorem computeStep_fold_nograd (guide_trace : Trace) (st : String → List String)
    (target_site : String) :
    ∀ (nodes : List (String × Site)) (acc : MultiViewTensor × List (String × Site))
      (res : MultiViewTensor × List (String × Site)),
      MVTNoGrad acc.1 →
      nodes.foldlM (computeStep guide_trace st target_site) acc = .ok res →
      MVTNoGrad res.1 := by
  intro nodes
  induction nodes with
  | nil =>
      intro acc res hacc h
      simp only [List.foldlM, Pure.pure, Except.pure, Except.ok.injEq] at h
      rw [← h]
      exact hacc
  | cons node rest ih =>
      intro acc res hacc h
      simp only [List.foldlM] at h
      cases hstep : computeStep guide_trace st target_site acc node with
      | error msg =>
          rw [hstep] at h
          simp [Bind.bind, Except.bind] at h
      | ok acc' =>
          rw [hstep] at h
          simp only [Bind.bind, Except.bind] at h
          refine ih acc' res ?_ h
          rcases node with ⟨name, model_site⟩
          simp only [computeStep] at hstep
          by_cases hty : model_site.stype = SiteType.sample
          · rw [if_pos hty] at hstep
            simp only [Bind.bind, Except.bind] at hstep
            by_cases hobs : model_site.is_observed = true
            · rw [if_pos hobs] at hstep
              simp only [Pure.pure, Except.pure, Except.ok.injEq] at hstep
              rw [← hstep]
              refine add_nograd hacc (mvt_sum_leftmost_all_but_nograd _ ?_)
              intro u hu
              rw [List.mem_singleton.1 hu]
              rfl
            · rw [if_neg hobs] at hstep
              cases hg : ofOption (guide_trace.lookup name) with
              | error m2 => simp [hg] at hstep
              | ok gs =>
                  cases hsub : model_site.batch_log_pdf.sub gs.score_parts.1 with
                  | error m2 => simp [hg, hsub] at hstep
                  | ok tt =>
                      simp only [hg, hsub, Pure.pure, Except.pure, Except.ok.injEq] at hstep
                      rw [← hstep]
                      refine add_nograd hacc (mvt_sum_leftmost_all_but_nograd _ ?_)
                      intro u hu
                      rw [List.mem_singleton.1 hu]
                      rfl
          · rw [if_neg hty] at hstep
            simp only [Pure.pure, Except.pure, Except.ok.injEq] at hstep
            rw [← hstep]
            exact hacc

/-- C9: the tensor `compute_site_log_r` returns is detached — every
site's log-ratio term is detached before accumulation, so the contracted
result carries no gradient dependence on model or guide parameters,
whether the contributing sites are observed or not. -/
theorem compute_site_log_r_result_detached (model_trace guide_trace : Trace)
    (target_site : String) (target_shape : List ℕ) (p : Tensor × Trace)
    (h : compute_site_log_r model_trace guide_trace target_site target_shape = .ok p) :
    p.1.requiresGrad = false := by
  unfold compute_site_log_r at h
  cases hf : model_trace.nodes.foldlM
      (computeStep guide_trace model_trace.iarange_stacks target_site)
      (MultiViewTensor.empty, []) with
  | error msg => rw [hf] at h; simp [Bind.bind, Except.bind] at h
  | ok res =>
      rw [hf] at h
      simp only [Bind.bind, Except.bind] at h
      cases hc : res.1.contract target_shape with
      | error msg => rw [hc] at h; simp at h
      | ok t =>
          rw [hc] at h
          simp only [Pure.pure, Except.pure, Except.ok.injEq] at h
          have hng : MVTNoGrad res.1 :=
            computeStep_fold_nograd guide_trace model_trace.iarange_stacks target_site
              model_trace.nodes _ res (fun u hu => absurd hu (List.not_mem_nil u)) hf
          have := contract_nograd hng hc
          rw [← h]
          exact this

/-- Concrete run for the C9 theorem: on `exM1`/`exG1` the returned
log-ratio tensor is `9` with `requires_grad = false`, as the theorem then
confirms. -/
theorem compute_site_log_r_result_detached_witness :
    compute_site_log_r exM1 exG1 "a" [] = .ok (⟨[], [some 9], false⟩, exM1after) ∧
    (Tensor.mk [] [some 9] false).requiresGrad = false :=
  have h : compute_site_log_r exM1 exG1 "a" [] = .ok (⟨[], [some 9], false⟩, exM1after) := by
    norm_num +decide [compute_site_log_r, computeStep, exM1, exG1, exM1after, mkLatent,
      mkGuide, tS, Trace.lookup, lookupSite, ofOption, n_compatible_indices,
      n_compatible_indices.commonPrefixLen, MultiViewTensor.empty,
      MultiViewTensor.ofTensor, MultiViewTensor.addT, MultiViewTensor.add,
      MultiViewTensor.sum_leftmost_all_but, MultiViewTensor.contract,
      Tensor.sub, Tensor.detach, Tensor.sum_leftmost_all_but, Tensor.broadcastTo,
      Tensor.addSameShape, sumChunks, tile, List.foldlM, List.foldl,
      Except.bind, Bind.bind, Except.pure, Pure.pure, Except.map, Functor.map,
      fadd, fneg, fsub, fsum, range_one_eq]
  ⟨h, compute_site_log_r_result_detached exM1 exG1 "a" [] _ h⟩

/-!
## Claim C5 — what the surrogate accumulator receives per latent site
-/

theorem sval_add_assoc (a b c : SVal) : (a.add b).add c = a.add (b.add c) := by
  simp [SVal.add, fadd_assoc, Bool.or_assoc]

theorem sval_add_sub (a b c : SVal) : (a.add b).sub c = a.add (b.sub c) := by
  simp [SVal.add, SVal.sub, fsub, fadd_assoc, Bool.or_assoc]

/-- C5: whenever the `loss_and_grads` loop body processes a non-observed
sample site and succeeds, the surrogate accumulator receives exactly the
delta described by the spec — `model_log_pdf`, minus the summed entropy
term when the guide provides one, plus the summed product of the
score-function term (when nonzero) with the site's log-ratio from
`compute_site_log_r` at the guide log-density's shape — and the model
trace is left as that call leaves it. -/
theorem lagStep_surrogate_receives_spec_delta (guide_trace : Trace)
    (ep sp : SVal) (cur : Trace) (name : String) (site : Site)
    (hs : site.stype = SiteType.sample) (ho : site.is_observed = false)
    (ep' sp' : SVal) (cur' : Trace)
    (h : lagStep guide_trace (ep, sp, cur) (name, site) = .ok (ep', sp', cur')) :
    ∃ d mt', specSurrogateDelta cur guide_trace name site = .ok (d, mt') ∧
      sp' = sp.add d ∧ cur' = mt' := by
  simp only [lagStep, hs, ho, Bool.false_eq_true, if_false, eq_self_iff_true, if_true,
    Bind.bind, Except.bind] at h
  cases hg : guide_trace.lookup name with
  | none => simp [ofOption, hg] at h
  | some g =>
      simp only [ofOption, hg] at h
      cases hent : g.score_parts.2.2 with
      | none =>
          cases hsf : g.score_parts.2.1 with
          | none =>
              simp only [hent, hsf, Pure.pure, Except.pure, Except.ok.injEq,
                Prod.mk.injEq] at h
              refine ⟨SVal.ofTensor site.log_pdf, cur, ?_, ?_, ?_⟩
              · simp [specSurrogateDelta, ofOption, hg, hent, hsf, Pure.pure, Except.pure,
                  Bind.bind, Except.bind]
              · exact h.2.1.symm
              · exact h.2.2.symm
          | some sf =>
              simp only [hent, hsf] at h
              cases hcmp : compute_site_log_r cur guide_trace name g.score_parts.1.shape with
              | error m2 => simp [hcmp] at h
              | ok pr =>
                  cases hmul : Tensor.mul pr.1 sf with
                  | error m2 => simp [hcmp, hmul] at h
                  | ok prd =>
                      simp only [hcmp, hmul, Bind.bind, Except.bind, Pure.pure,
                        Except.pure, Except.ok.injEq, Prod.mk.injEq] at h
                      refine ⟨(SVal.ofTensor site.log_pdf).add
                          (SVal.ofTensor prd.tsum), pr.2, ?_, ?_, ?_⟩
                      · simp [specSurrogateDelta, ofOption, hg, hent, hsf, hcmp, hmul,
                          Pure.pure, Except.pure, Bind.bind, Except.bind]
                      · rw [← h.2.1, sval_add_assoc]
                      · exact h.2.2.symm
      | some ent =>
          cases hsf : g.score_parts.2.1 with
          | none =>
              simp only [hent, hsf, Pure.pure, Except.pure, Except.ok.injEq,
                Prod.mk.injEq] at h
              refine ⟨(SVal.ofTensor site.log_pdf).sub (SVal.ofTensor ent.tsum), cur,
                ?_, ?_, ?_⟩
              · simp [specSurrogateDelta, ofOption, hg, hent, hsf, Pure.pure, Except.pure,
                  Bind.bind, Except.bind]
              · rw [← h.2.1, sval_add_sub]
              · exact h.2.2.symm
          | some sf =>
              simp only [hent, hsf] at h
              cases hcmp : compute_site_log_r cur guide_trace name g.score_parts.1.shape with
              | error m2 => simp [hcmp] at h
              | ok pr =>
                  cases hmul : Tensor.mul pr.1 sf with
                  | error m2 => simp [hcmp, hmul] at h
                  | ok prd =>
                      simp only [hcmp, hmul, Bind.bind, Except.bind, Pure.pure,
                        Except.pure, Except.ok.injEq, Prod.mk.injEq] at h
                      refine ⟨((SVal.ofTensor site.log_pdf).sub (SVal.ofTensor ent.tsum)).add
                          (SVal.ofTensor prd.tsum), pr.2, ?_, ?_, ?_⟩
                      · simp [specSurrogateDelta, ofOption, hg, hent, hsf, hcmp, hmul,
                          Pure.pure, Except.pure, Bind.bind, Except.bind]
                      · rw [← h.2.1, sval_add_sub, sval_add_assoc]
                      · exact h.2.2.symm

/-- Concrete run for the C5 theorem: processing the latent site of
`exM4` against `exG4` (entropy term 4, score-function term 2) adds
`3 - 4 + (4 * 2) = 7` to the surrogate, as the theorem then decomposes. -/
theorem lagStep_surrogate_receives_spec_delta_witness :
    lagStep exG4 (SVal.num (some 0), SVal.num (some 0), exM4) ("x", exSite4) =
      .ok (⟨some 2, true, false⟩, ⟨some 7, true, false⟩, exM4after) ∧
    ∃ d mt', specSurrogateDelta exM4 exG4 "x" exSite4 = .ok (d, mt') ∧
      (⟨some 7, true, false⟩ : SVal) = (SVal.num (some 0)).add d ∧ exM4after = mt' :=
  have h : lagStep exG4 (SVal.num (some 0), SVal.num (some 0), exM4) ("x", exSite4) =
      .ok (⟨some 2, true, false⟩, ⟨some 7, true, false⟩, exM4after) := by
    norm_num +decide [lagStep, exM4, exG4, exSite4, exM4after, mkLatent, mkGuide, tS,
      Trace.lookup, lookupSite, ofOption, compute_site_log_r, computeStep,
      n_compatible_indices, n_compatible_indices.commonPrefixLen,
      MultiViewTensor.empty, MultiViewTensor.ofTensor, MultiViewTensor.addT,
      MultiViewTensor.add, MultiViewTensor.sum_leftmost_all_but,
      MultiViewTensor.contract, Tensor.sub, Tensor.mul, Tensor.detach, Tensor.item,
      Tensor.tsum, Tensor.sum_leftmost_all_but, Tensor.broadcastTo,
      Tensor.addSameShape, sumChunks, tile, List.foldlM, List.foldl,
      Except.bind, Bind.bind, Except.pure, Pure.pure, Except.map, Functor.map,
      SVal.num, SVal.ofTensor, SVal.add, SVal.sub, fadd, fneg, fsub, fmul, fsum,
      range_one_eq]
  ⟨h, lagStep_surrogate_receives_spec_delta exG4 (SVal.num (some 0)) (SVal.num (some 0))
    exM4 "x" exSite4 rfl rfl _ _ _ h⟩

/-!
## Claim C3 — `loss` is the negated average of particle differences
-/

theorem lossStep_ok (e : Trace_ELBO) (s p : ℕ → Trace × Trace)
    (hp : ∀ i, e.get_trace_pair (s i) = .ok (p i)) (elbo : Flt) (i : ℕ) :
    e.lossStep s elbo i =
      .ok (fadd elbo (fdivn (fsub (p i).1.log_pdf (p i).2.log_pdf) e.num_particles)) := by
  rcases hpi : p i with ⟨mt, gt⟩
  have h := hp i
  rw [hpi] at h
  simp [Trace_ELBO.lossStep, h, hpi, Bind.bind, Except.bind, Pure.pure, Except.pure]

theorem foldlM_lossStep (e : Trace_ELBO) (s p : ℕ → Trace × Trace)
    (hp : ∀ i, e.get_trace_pair (s i) = .ok (p i)) :
    ∀ (l : List ℕ) (c : Flt),
      l.foldlM (e.lossStep s) c =
        .ok (l.foldl (fun acc i =>
          fadd acc (fdivn (fsub (p i).1.log_pdf (p i).2.log_pdf) e.num_particles)) c) := by
  intro l
  induction l with
  | nil => intro c; simp [List.foldlM, Pure.pure, Except.pure]
  | cons i t ih =>
      intro c
      simp only [List.foldlM, List.foldl_cons, lossStep_ok e s p hp, Bind.bind, Except.bind]
      exact ih _

theorem foldl_adddiv (N : ℕ) (f : ℕ → Flt) :
    ∀ (l : List ℕ) (c : Flt),
      l.foldl (fun acc i => fadd acc (fdivn (f i) N)) c = fadd c (fdivn (fsum (l.map f)) N) := by
  intro l
  induction l with
  | nil => intro c; simp [fsum_nil, fdivn_zero_val, fadd_zero]
  | cons i t ih =>
      intro c
      simp only [List.foldl_cons, List.map_cons, ih, fsum_cons, fdivn_fadd, fadd_assoc]

/-- C3: for a positive particle count, whenever every particle's trace
pair is produced successfully, `loss` returns exactly the negation of the
average over the particles of `model_total_log_density -
guide_total_log_density`, each difference a plain number — together with
its NaN flag. -/
theorem loss_is_neg_average_of_particle_diffs (e : Trace_ELBO) (s p : ℕ → Trace × Trace)
    (hp : ∀ i, e.get_trace_pair (s i) = .ok (p i)) (hn : 0 < e.num_particles) :
    e.loss s = .ok (specLoss e.num_particles p, is_nan (specLoss e.num_particles p)) := by
  unfold Trace_ELBO.loss specLoss
  rw [foldlM_lossStep e s p hp,
    foldl_adddiv e.num_particles (fun i => fsub (p i).1.log_pdf (p i).2.log_pdf)
      (List.range e.num_particles) (some 0), zero_fadd]
  simp [Bind.bind, Except.bind, Pure.pure, Except.pure]

/-- Concrete run for the C3 theorem: two identical particles with
difference `3 - 1 = 2` give loss `-(2/2 + 2/2) = -2`, the negated
average. -/
theorem loss_is_neg_average_of_particle_diffs_witness :
    Trace_ELBO.loss ⟨2, 0⟩ (fun _ => (exM2, exG2)) = .ok (some (-2), false) ∧
    specLoss 2 (fun _ => (exM2, exG2)) = some (-2) ∧ 0 < 2 :=
  have hp : ∀ i : ℕ, Trace_ELBO.get_trace_pair ⟨2, 0⟩
      ((fun _ => (exM2, exG2)) i) = .ok ((fun _ => (exM2, exG2)) i) := by
    intro i
    norm_num +decide [Trace_ELBO.get_trace_pair, check_model_guide_match,
      prune_subsample_sites, check_site_shape, checkSampleShapes, exM2, exG2,
      mkLatent, mkGuide, tS, List.foldlM, Except.bind, Bind.bind, Except.pure,
      Pure.pure]
  have hsl : specLoss 2 (fun _ => (exM2, exG2)) = some (-2) := by
    norm_num [specLoss, range_two_eq, Trace.log_pdf, exM2, exG2, mkLatent, mkGuide,
      tS, Tensor.item, fadd, fneg, fsub, fdivn, fsum]
  ⟨by
    rw [loss_is_neg_average_of_particle_diffs ⟨2, 0⟩ (fun _ => (exM2, exG2))
      (fun _ => (exM2, exG2)) hp (by norm_num), hsl]
    rfl, hsl, by norm_num⟩

/-!
## Claim C6 — one backward pass per qualifying particle
-/

theorem lagParticleStep_fold_events (e : Trace_ELBO) (s : ℕ → Trace × Trace) :
    ∀ (l : List ℕ) (acc res : SVal × List Event),
      l.foldlM (e.lagParticleStep s) acc = .ok res →
      ∃ outs : List (SVal × SVal × Finset ℕ),
        List.Forall₂ (fun i o => e.particleRun (s i) = .ok o) l outs ∧
        res.2 = acc.2 ++
          (outs.map (fun o => particleEvents e.num_particles o.2.1 o.2.2)).flatten := by
  intro l
  induction l with
  | nil =>
      intro acc res h
      simp only [List.foldlM, Pure.pure, Except.pure, Except.ok.injEq] at h
      exact ⟨[], List.Forall₂.nil, by rw [← h]; simp⟩
  | cons i t ih =>
      intro acc res h
      simp only [List.foldlM] at h
      cases hstep : e.lagParticleStep s acc i with
      | error m2 => rw [hstep] at h; simp [Bind.bind, Except.bind] at h
      | ok acc' =>
          rw [hstep] at h
          simp only [Bind.bind, Except.bind] at h
          obtain ⟨outs, hfa, hev⟩ := ih acc' res h
          unfold Trace_ELBO.lagParticleStep at hstep
          cases hpr : e.particleRun (s i) with
          | error m2 => rw [hpr] at hstep; simp [Bind.bind, Except.bind] at hstep
          | ok out =>
              rw [hpr] at hstep
              simp only [Bind.bind, Except.bind, Pure.pure, Except.pure,
                Except.ok.injEq] at hstep
              refine ⟨out :: outs, List.Forall₂.cons hpr hfa, ?_⟩
              rw [hev, ← hstep]
              simp [List.append_assoc]

/-- C6: the events of a successful `loss_and_grads` call are exactly the
concatenation, particle by particle, of that particle's own tail: one
backward pass on `-surrogate/num_particles` immediately followed by one
`mark_params_active` with the particle's trainable-parameter set — if and
only if that set is nonempty and the surrogate can produce gradients —
and nothing at all otherwise.  Backward passes are never batched across
particles. -/
theorem loss_and_grads_backward_per_particle (e : Trace_ELBO) (s : ℕ → Trace × Trace)
    (r : LagResult) (h : e.loss_and_grads s = .ok r) :
    ∃ outs : List (SVal × SVal × Finset ℕ),
      List.Forall₂ (fun i o => e.particleRun (s i) = .ok o) (List.range e.num_particles) outs ∧
      r.events = (outs.map (fun o => particleEvents e.num_particles o.2.1 o.2.2)).flatten ∧
      ∀ o ∈ outs,
        (o.2.2 ≠ ∅ ∧ o.2.1.requiresGrad = true →
          particleEvents e.num_particles o.2.1 o.2.2 =
            [Event.backward ((o.2.1).neg.divn e.num_particles), Event.markActive o.2.2]) ∧
        (¬(o.2.2 ≠ ∅ ∧ o.2.1.requiresGrad = true) →
          particleEvents e.num_particles o.2.1 o.2.2 = []) := by
  unfold Trace_ELBO.loss_and_grads at h
  cases hf : (List.range e.num_particles).foldlM (e.lagParticleStep s)
      (SVal.num (some 0), ([] : List Event)) with
  | error m2 => rw [hf] at h; simp [Bind.bind, Except.bind] at h
  | ok acc =>
      rw [hf] at h
      simp only [Bind.bind, Except.bind, Pure.pure, Except.pure, Except.ok.injEq] at h
      obtain ⟨outs, hfa, hev⟩ := lagParticleStep_fold_events e s _ _ _ hf
      refine ⟨outs, hfa, ?_, ?_⟩
      · rw [← h]
        simpa using hev
      · intro o _
        constructor
        · intro hc
          unfold particleEvents
          rw [if_pos hc]
        · intro hc
          unfold particleEvents
          rw [if_neg hc]

/-- Concrete run for the C6 theorem: one particle with a `param` site
(identity 11) and a gradient-capable surrogate performs exactly one
backward pass on `-surrogate/1` followed by one mark-active call with
`{11}`, as the theorem then decomposes. -/
theorem loss_and_grads_backward_per_particle_witness :
    Trace_ELBO.loss_and_grads ⟨1, 0⟩ (fun _ => (exM5, exGEmpty)) =
      .ok ⟨⟨some (-4), false, false⟩, false,
        [Event.backward ⟨some (-4), true, true⟩, Event.markActive {11}]⟩ ∧
    ∃ outs : List (SVal × SVal × Finset ℕ),
      List.Forall₂ (fun i o => Trace_ELBO.particleRun ⟨1, 0⟩
        ((fun _ => (exM5, exGEmpty)) i) = .ok o) (List.range 1) outs ∧
      [Event.backward ⟨some (-4), true, true⟩, Event.markActive {11}] =
        (outs.map (fun o => particleEvents 1 o.2.1 o.2.2)).flatten ∧
      ∀ o ∈ outs,
        (o.2.2 ≠ ∅ ∧ o.2.1.requiresGrad = true →
          particleEvents 1 o.2.1 o.2.2 =
            [Event.backward ((o.2.1).neg.divn 1), Event.markActive o.2.2]) ∧
        (¬(o.2.2 ≠ ∅ ∧ o.2.1.requiresGrad = true) →
          particleEvents 1 o.2.1 o.2.2 = []) :=
  have h : Trace_ELBO.loss_and_grads ⟨1, 0⟩ (fun _ => (exM5, exGEmpty)) =
      .ok ⟨⟨some (-4), false, false⟩, false,
        [Event.backward ⟨some (-4), true, true⟩, Event.markActive {11}]⟩ := by
    norm_num +decide [Trace_ELBO.loss_and_grads, Trace_ELBO.lagParticleStep,
      Trace_ELBO.particleRun, Trace_ELBO.get_trace_pair, lagStep, particleEvents,
      trainableParams, check_model_guide_match, prune_subsample_sites,
      check_site_shape, checkSampleShapes, Trace.lookup, lookupSite, ofOption,
      exM5, exGEmpty, mkParam, mkObserved, tS, tG, range_one_eq, List.foldlM,
      Except.bind, Bind.bind, Except.pure, Pure.pure, Tensor.item, Tensor.tsum,
      SVal.num, SVal.ofTensor, SVal.add, SVal.sub, SVal.neg, SVal.divn,
      fadd, fneg, fsub, fdivn, fsum, is_nan]
  ⟨h, loss_and_grads_backward_per_particle ⟨1, 0⟩ (fun _ => (exM5, exGEmpty)) _ h⟩

/-!
## Claim C4 — the ELBO inside `loss_and_grads` matches `loss`
-/

theorem fadd_rearrange (a b c d : Flt) :
    fadd (fadd a (fneg b)) (fadd c (fneg d)) = fadd (fadd a c) (fadd (fneg b) (fneg d)) := by
  cases a <;> cases b <;> cases c <;> cases d <;> simp [fadd, fneg] <;> ring

theorem lagStep_elbo_val (guide_trace : Trace) (ep sp : SVal) (cur : Trace)
    (name : String) (site : Site) (ep' sp' : SVal) (cur' : Trace)
    (h : lagStep guide_trace (ep, sp, cur) (name, site) = .ok (ep', sp', cur')) :
    ep'.val = fadd ep.val (elboContribOne guide_trace (name, site)) := by
  simp only [lagStep] at h
  by_cases hty : site.stype = SiteType.sample
  · rw [if_pos hty] at h
    by_cases hobs : site.is_observed = true
    · rw [if_pos hobs] at h
      simp only [Pure.pure, Except.pure, Except.ok.injEq, Prod.mk.injEq] at h
      rw [← h.1]
      simp [SVal.add, SVal.num, elboContribOne, hty, hobs]
    · rw [if_neg hobs] at h
      simp only [Bind.bind, Except.bind] at h
      cases hg : guide_trace.lookup name with
      | none => simp [ofOption, hg] at h
      | some g =>
          simp only [ofOption, hg] at h
          have hcontrib : elboContribOne guide_trace (name, site) =
              fadd site.log_pdf.item (fneg (fsum g.score_parts.1.data)) := by
            simp [elboContribOne, hty, hobs, guideLogPdfSum, hg, fsub]
          have hval : ∀ x : SVal,
              x = (ep.add (SVal.ofTensor site.log_pdf)).sub
                    (SVal.ofTensor g.score_parts.1.tsum) →
              x.val = fadd ep.val (elboContribOne guide_trace (name, site)) := by
            intro x hx
            rw [hx, hcontrib]
            simp [SVal.add, SVal.sub, SVal.ofTensor, Tensor.tsum, Tensor.item, fsub,
              fadd_assoc]
          cases hent : g.score_parts.2.2 with
          | none =>
              cases hsf : g.score_parts.2.1 with
              | none =>
                  simp only [hent, hsf, Pure.pure, Except.pure, Except.ok.injEq,
                    Prod.mk.injEq] at h
                  exact hval ep' h.1.symm
              | some sf =>
                  simp only [hent, hsf] at h
                  cases hcmp : compute_site_log_r cur guide_trace name
                      g.score_parts.1.shape with
                  | error m2 => simp [hcmp] at h
                  | ok pr =>
                      cases hmul : Tensor.mul pr.1 sf with
                      | error m2 => simp [hcmp, hmul] at h
                      | ok prd =>
                          simp only [hcmp, hmul, Bind.bind, Except.bind, Pure.pure,
                            Except.pure, Except.ok.injEq, Prod.mk.injEq] at h
                          exact hval ep' h.1.symm
          | some ent =>
              cases hsf : g.score_parts.2.1 with
              | none =>
                  simp only [hent, hsf, Pure.pure, Except.pure, Except.ok.injEq,
                    Prod.mk.injEq] at h
                  exact hval ep' h.1.symm
              | some sf =>
                  simp only [hent, hsf] at h
                  cases hcmp : compute_site_log_r cur guide_trace name
                      g.score_parts.1.shape with
                  | error m2 => simp [hcmp] at h
                  | ok pr =>
                      cases hmul : Tensor.mul pr.1 sf with
                      | error m2 => simp [hcmp, hmul] at h
                      | ok prd =>
                          simp only [hcmp, hmul, Bind.bind, Except.bind, Pure.pure,
                            Except.pure, Except.ok.injEq, Prod.mk.injEq] at h
                          exact hval ep' h.1.symm
  · rw [if_neg hty] at h
    simp only [Pure.pure, Except.pure, Except.ok.injEq, Prod.mk.injEq] at h
    rw [← h.1]
    simp [elboContribOne, hty, fadd_zero]

theorem lagStep_fold_elbo_val (guide_trace : Trace) :
    ∀ (nodes : List (String × Site)) (st res : SVal × SVal × Trace),
      nodes.foldlM (lagStep guide_trace) st = .ok res →
      res.1.val = fadd st.1.val (elboParticleSpec guide_trace nodes) := by
  intro nodes
  induction nodes with
  | nil =>
      intro st res h
      simp only [List.foldlM, Pure.pure, Except.pure, Except.ok.injEq] at h
      rw [← h]
      simp [elboParticleSpec, fsum_nil, fadd_zero]
  | cons node rest ih =>
      intro st res h
      simp only [List.foldlM] at h
      cases hstep : lagStep guide_trace st node with
      | error m2 => rw [hstep] at h; simp [Bind.bind, Except.bind] at h
      | ok st' =>
          rw [hstep] at h
          simp only [Bind.bind, Except.bind] at h
          have h1 := ih st' res h
          rcases node with ⟨name, site⟩
          rcases st with ⟨ep, sp, cur⟩
          rcases st' with ⟨ep', sp', cur'⟩
          have h2 := lagStep_elbo_val guide_trace ep sp cur name site ep' sp' cur' hstep
          rw [h1]
          simp only [h2, elboParticleSpec, List.map_cons, fsum_cons, fadd_assoc]

theorem elboParticleSpec_split (guide_trace : Trace) :
    ∀ nodes : List (String × Site),
      elboParticleSpec guide_trace nodes =
        fsub (fsum ((nodes.filter (fun p => p.2.stype = SiteType.sample)).map
                (fun p => p.2.log_pdf.item)))
             (fsum ((nodes.filter (fun p => p.2.stype = SiteType.sample ∧
                 p.2.is_observed = false)).map
                (fun p => guideLogPdfSum guide_trace p.1))) := by
  intro nodes
  induction nodes with
  | nil => simp [elboParticleSpec, fsum_nil, fsub, fneg, fadd]
  | cons p rest ih =>
      by_cases hty : p.2.stype = SiteType.sample
      · by_cases hobs : p.2.is_observed = true
        · have hfm : (p :: rest).filter (fun q => q.2.stype = SiteType.sample) =
              p :: rest.filter (fun q => q.2.stype = SiteType.sample) := by
            simp [List.filter_cons, hty]
          have hfg : (p :: rest).filter (fun q => q.2.stype = SiteType.sample ∧
              q.2.is_observed = false) =
              rest.filter (fun q => q.2.stype = SiteType.sample ∧ q.2.is_observed = false) := by
            simp [List.filter_cons, hobs]
          rw [elboParticleSpec, List.map_cons, fsum_cons, ← elboParticleSpec, ih, hfm, hfg,
            List.map_cons, fsum_cons]
          have hc : elboContribOne guide_trace p = p.2.log_pdf.item := by
            simp [elboContribOne, hty, hobs]
          rw [hc, fsub, fsub, fadd_assoc]
        · have hobs' : p.2.is_observed = false := by
            cases hob2 : p.2.is_observed
            · rfl
            · exact absurd hob2 hobs
          have hfm : (p :: rest).filter (fun q => q.2.stype = SiteType.sample) =
              p :: rest.filter (fun q => q.2.stype = SiteType.sample) := by
            simp [List.filter_cons, hty]
          have hfg : (p :: rest).filter (fun q => q.2.stype = SiteType.sample ∧
              q.2.is_observed = false) =
              p :: rest.filter (fun q => q.2.stype = SiteType.sample ∧
                q.2.is_observed = false) := by
            simp [List.filter_cons, hty, hobs']
          rw [elboParticleSpec, List.map_cons, fsum_cons, ← elboParticleSpec, ih, hfm, hfg,
            List.map_cons, List.map_cons, fsum_cons, fsum_cons]
          have hc : elboContribOne guide_trace p =
              fadd p.2.log_pdf.item (fneg (guideLogPdfSum guide_trace p.1)) := by
            simp [elboContribOne, hty, hobs', fsub]
          rw [hc, fsub, fsub, fneg_fadd, fadd_rearrange]
      · have hfm : (p :: rest).filter (fun q => q.2.stype = SiteType.sample) =
            rest.filter (fun q => q.2.stype = SiteType.sample) := by
          simp [List.filter_cons, hty]
        have hfg : (p :: rest).filter (fun q => q.2.stype = SiteType.sample ∧
            q.2.is_observed = false) =
            rest.filter (fun q => q.2.stype = SiteType.sample ∧ q.2.is_observed = false) := by
          simp [List.filter_cons, hty]
        rw [elboParticleSpec, List.map_cons, fsum_cons, ← elboParticleSpec, ih, hfm, hfg]
        have hc : elboContribOne guide_trace p = some 0 := by
          simp [elboContribOne, hty]
        rw [hc, zero_fadd]

theorem lookup_of_mem_nodup :
    ∀ (nodes : List (String × Site)), (nodes.map Prod.fst).Nodup →
      ∀ p ∈ nodes, lookupSite nodes p.1 = some p.2 := by
  intro nodes
  induction nodes with
  | nil => intro _ p hp; cases hp
  | cons q rest ih =>
      intro hnd p hp
      rcases q with ⟨qn, qs⟩
      simp only [List.map_cons, List.nodup_cons] at hnd
      rcases List.mem_cons.1 hp with rfl | hmem
      · simp [lookupSite]
      · have hne : qn ≠ p.1 := by
          intro he
          exact hnd.1 (he ▸ List.mem_map_of_mem Prod.fst hmem)
        simp only [lookupSite, if_neg hne]
        exact ih hnd.2 p hmem

theorem guide_sum_eq (mt gt : Trace)
    (hperm : ((mt.nodes.filter (fun p => p.2.stype = SiteType.sample ∧
        p.2.is_observed = false)).map Prod.fst).Perm
      ((gt.nodes.filter (fun p => p.2.stype = SiteType.sample)).map Prod.fst))
    (hnodup : (gt.nodes.map Prod.fst).Nodup)
    (hcoh : ∀ name g, gt.lookup name = some g → g.stype = SiteType.sample →
      fsum g.score_parts.1.data = g.log_pdf.item) :
    fsum ((mt.nodes.filter (fun p => p.2.stype = SiteType.sample ∧
        p.2.is_observed = false)).map (fun p => guideLogPdfSum gt p.1)) = gt.log_pdf := by
  have h1 : (mt.nodes.filter (fun p => p.2.stype = SiteType.sample ∧
      p.2.is_observed = false)).map (fun p => guideLogPdfSum gt p.1) =
      ((mt.nodes.filter (fun p => p.2.stype = SiteType.sample ∧
        p.2.is_observed = false)).map Prod.fst).map (guideLogPdfSum gt) := by
    rw [List.map_map]
    rfl
  rw [h1, fsum_perm (hperm.map (guideLogPdfSum gt)), List.map_map]
  unfold Trace.log_pdf
  congr 1
  apply List.map_congr_left
  intro p hp
  have hmem : p ∈ gt.nodes := List.mem_of_mem_filter hp
  have hsample : p.2.stype = SiteType.sample := by
    have := List.of_mem_filter hp
    simpa using this
  have hlk : gt.lookup p.1 = some p.2 := lookup_of_mem_nodup gt.nodes hnodup p hmem
  show guideLogPdfSum gt p.1 = p.2.log_pdf.item
  rw [guideLogPdfSum, hlk]
  exact hcoh p.1 p.2 hlk hsample

/-- C4: with one particle and a shared trace pair, the ELBO value that
`loss_and_grads` accumulates (and negates into its returned loss) is
exactly the ELBO computed by `loss` — assuming the trace-engine
invariants the spec records: the guide's sample sites are (up to order)
the model's non-observed sample sites, guide site names are unique, and
each guide site's total `log_pdf` is the sum of its batch-level
`guide_log_pdf`. -/
theorem loss_and_grads_elbo_matches_loss (e : Trace_ELBO) (s : ℕ → Trace × Trace)
    (mt gt : Trace)
    (hN : e.num_particles = 1)
    (hpair : e.get_trace_pair (s 0) = .ok (mt, gt))
    (hperm : ((mt.nodes.filter (fun p => p.2.stype = SiteType.sample ∧
        p.2.is_observed = false)).map Prod.fst).Perm
      ((gt.nodes.filter (fun p => p.2.stype = SiteType.sample)).map Prod.fst))
    (hnodup : (gt.nodes.map Prod.fst).Nodup)
    (hcoh : ∀ name g, gt.lookup name = some g → g.stype = SiteType.sample →
      fsum g.score_parts.1.data = g.log_pdf.item)
    (lv : Flt × Bool) (hl : e.loss s = .ok lv)
    (r : LagResult) (hg : e.loss_and_grads s = .ok r) :
    r.loss.val = lv.1 := by
  have hlv : lv.1 = fneg (fsub mt.log_pdf gt.log_pdf) := by
    unfold Trace_ELBO.loss at hl
    rw [hN, range_one_eq] at hl
    simp only [List.foldlM, Trace_ELBO.lossStep, hpair, hN, Bind.bind, Except.bind,
      Pure.pure, Except.pure, Except.ok.injEq] at hl
    rw [← hl]
    simp [zero_fadd, fdivn_one]
  unfold Trace_ELBO.loss_and_grads at hg
  rw [hN, range_one_eq] at hg
  simp only [List.foldlM, Trace_ELBO.lagParticleStep, hN, Bind.bind, Except.bind] at hg
  cases hpr : e.particleRun (s 0) with
  | error m2 => rw [hpr] at hg; simp at hg
  | ok out =>
      rcases out with ⟨ep, sp, tp⟩
      rw [hpr] at hg
      simp only [Pure.pure, Except.pure, Except.ok.injEq] at hg
      unfold Trace_ELBO.particleRun at hpr
      rw [hpair] at hpr
      simp only [Bind.bind, Except.bind] at hpr
      cases hfold : mt.nodes.foldlM (lagStep gt)
          (SVal.num (some 0), SVal.num (some 0), mt) with
      | error m2 => rw [hfold] at hpr; simp at hpr
      | ok st =>
          rcases st with ⟨ep2, sp2, mtF⟩
          rw [hfold] at hpr
          simp only [Pure.pure, Except.pure, Except.ok.injEq, Prod.mk.injEq] at hpr
          have hval := lagStep_fold_elbo_val gt mt.nodes
            (SVal.num (some 0), SVal.num (some 0), mt) (ep2, sp2, mtF) hfold
          have hspec : elboParticleSpec gt mt.nodes = fsub mt.log_pdf gt.log_pdf := by
            rw [elboParticleSpec_split, guide_sum_eq mt gt hperm hnodup hcoh]
            rfl
          have hep2 : ep2.val = fsub mt.log_pdf gt.log_pdf := by
            have : (SVal.num (some 0)).val = some 0 := rfl
            rw [hval, this, zero_fadd, hspec]
          have hep : ep = ep2 := hpr.1.symm
          rw [← hg, hlv]
          simp [SVal.neg, SVal.add, SVal.divn, SVal.num, hep, hep2, zero_fadd, fdivn_one]

/-- Concrete run for the C4 theorem: one particle over `exM3` (observed
`y` with log-pdf 4, latent `x` with log-pdf 3) and guide `exG2` (guide
log-pdf 1 at `x`): `loss` returns `-(4+3-1) = -6` and the ELBO inside
`loss_and_grads` gives the same value (as a tensor), as the theorem then
confirms. -/
theorem loss_and_grads_elbo_matches_loss_witness :
    Trace_ELBO.loss ⟨1, 0⟩ (fun _ => (exM3, exG2)) = .ok (some (-6), false) ∧
    Trace_ELBO.loss_and_grads ⟨1, 0⟩ (fun _ => (exM3, exG2)) =
      .ok ⟨⟨some (-6), true, false⟩, false, []⟩ ∧
    (SVal.mk (some (-6)) true false).val = ((some (-6) : Flt), false).1 :=
  have hpair : Trace_ELBO.get_trace_pair ⟨1, 0⟩
      ((fun _ => (exM3, exG2)) 0) = .ok (exM3, exG2) := by
    norm_num +decide [Trace_ELBO.get_trace_pair, check_model_guide_match,
      prune_subsample_sites, check_site_shape, checkSampleShapes, exM3, exG2,
      mkObserved, mkLatent, mkGuide, tS, List.foldlM, Except.bind, Bind.bind,
      Except.pure, Pure.pure]
  have hperm : ((exM3.nodes.filter (fun p => p.2.stype = SiteType.sample ∧
      p.2.is_observed = false)).map Prod.fst).Perm
      ((exG2.nodes.filter (fun p => p.2.stype = SiteType.sample)).map Prod.fst) := by
    simp [exM3, exG2, mkObserved, mkLatent, mkGuide, tS, List.filter]
  have hnodup : (exG2.nodes.map Prod.fst).Nodup := by
    simp [exG2, mkGuide, tS]
  have hcoh : ∀ name g, exG2.lookup name = some g → g.stype = SiteType.sample →
      fsum g.score_parts.1.data = g.log_pdf.item := by
    intro name g hlk hsm
    simp only [Trace.lookup, exG2, lookupSite] at hlk
    split at hlk
    · cases hlk
      norm_num [mkGuide, tS, fsum, fadd, Tensor.item, List.foldl]
    · cases hlk
  have hl : Trace_ELBO.loss ⟨1, 0⟩ (fun _ => (exM3, exG2)) = .ok (some (-6), false) := by
    norm_num +decide [Trace_ELBO.loss, Trace_ELBO.lossStep, Trace_ELBO.get_trace_pair,
      check_model_guide_match, prune_subsample_sites, check_site_shape,
      checkSampleShapes, Trace.log_pdf, Tensor.item, exM3, exG2, mkObserved,
      mkLatent, mkGuide, tS, range_one_eq, List.foldlM, Except.bind, Bind.bind,
      Except.pure, Pure.pure, fadd, fneg, fsub, fdivn, fsum, is_nan]
  have hg : Trace_ELBO.loss_and_grads ⟨1, 0⟩ (fun _ => (exM3, exG2)) =
      .ok ⟨⟨some (-6), true, false⟩, false, []⟩ := by
    norm_num +decide [Trace_ELBO.loss_and_grads, Trace_ELBO.lagParticleStep,
      Trace_ELBO.particleRun, Trace_ELBO.get_trace_pair, lagStep, particleEvents,
      trainableParams, check_model_guide_match, prune_subsample_sites,
      check_site_shape, checkSampleShapes, Trace.lookup, lookupSite, ofOption,
      exM3, exG2, mkObserved, mkLatent, mkGuide, tS, range_one_eq, List.foldlM,
      Except.bind, Bind.bind, Except.pure, Pure.pure, Tensor.item, Tensor.tsum,
      SVal.num, SVal.ofTensor, SVal.add, SVal.sub, SVal.neg, SVal.divn,
      fadd, fneg, fsub, fdivn, fsum, is_nan]
  ⟨hl, hg, loss_and_grads_elbo_matches_loss ⟨1, 0⟩ (fun _ => (exM3, exG2)) exM3 exG2
    rfl hpair hperm hnodup hcoh (some (-6), false) hl ⟨⟨some (-6), true, false⟩, false, []⟩ hg⟩

/-!
## Claim C1, continued — the amended log-ratio characterisation
-/

theorem contract_shape {m : MultiViewTensor} {target : List ℕ} {t : Tensor}
    (h : m.contract target = .ok t) : t.shape = target := by
  unfold MultiViewTensor.contract at h
  suffices haux : ∀ (l : MultiViewTensor) (acc : Tensor), acc.shape = target →
      l.foldlM (fun acc t =>
        let t' := if target.length < t.shape.length then t.sum_leftmost_all_but target.length
          else t
        (t'.broadcastTo target).map (fun tb => Tensor.addSameShape acc tb)) acc = .ok t →
      t.shape = target by
    exact haux m _ rfl h
  intro l
  induction l with
  | nil =>
      intro acc hacc h
      simp only [List.foldlM, Pure.pure, Except.pure, Except.ok.injEq] at h
      rw [← h]
      exact hacc
  | cons u rest ih =>
      intro acc hacc h
      simp only [List.foldlM] at h
      cases hb : (if target.length < u.shape.length then
          u.sum_leftmost_all_but target.length else u).broadcastTo target with
      | error m2 => simp [hb, Except.map, Bind.bind, Except.bind] at h
      | ok tb =>
          simp only [hb, Except.map, Bind.bind, Except.bind] at h
          exact ih (acc.addSameShape tb) (by simp [Tensor.addSameShape, hacc]) h

theorem computeStep_fold_spec (guide_trace : Trace) (st : String → List String)
    (target_site : String) :
    ∀ (nodes : List (String × Site)) (accM : MultiViewTensor)
      (accN : List (String × Site)) (res : MultiViewTensor × List (String × Site)),
      nodes.foldlM (computeStep guide_trace st target_site) (accM, accN) = .ok res →
      (nodes.filter (fun p => p.2.stype = SiteType.sample)).foldlM
        (specStep guide_trace st target_site) accM = .ok res.1 := by
  intro nodes
  induction nodes with
  | nil =>
      intro accM accN res h
      simp only [List.foldlM, Pure.pure, Except.pure, Except.ok.injEq] at h
      simp [List.filter, List.foldlM, Pure.pure, Except.pure, ← h]
  | cons node rest ih =>
      intro accM accN res h
      rcases node with ⟨name, site⟩
      simp only [List.foldlM] at h
      by_cases hty : site.stype = SiteType.sample
      · have hfl : ((name, site) :: rest).filter (fun p => p.2.stype = SiteType.sample) =
            (name, site) :: rest.filter (fun p => p.2.stype = SiteType.sample) := by
          simp [List.filter_cons, hty]
        rw [hfl]
        simp only [List.foldlM]
        by_cases hobs : site.is_observed = true
        · have hcs : computeStep guide_trace st target_site (accM, accN) (name, site) =
              .ok (accM.add ((MultiViewTensor.ofTensor
                  site.batch_log_pdf.detach).sum_leftmost_all_but
                (n_compatible_indices st name target_site)), accN ++ [(name, site)]) := by
            simp [computeStep, hty, hobs, Bind.bind, Except.bind, Pure.pure, Except.pure]
          have hss : specStep guide_trace st target_site accM (name, site) =
              .ok (accM.add ((MultiViewTensor.ofTensor
                  site.batch_log_pdf.detach).sum_leftmost_all_but
                (n_compatible_indices st name target_site))) := by
            simp [specStep, siteLogRTerm, hobs, Bind.bind, Except.bind, Pure.pure,
              Except.pure]
          rw [hcs] at h
          simp only [Bind.bind, Except.bind] at h
          rw [hss]
          simp only [Bind.bind, Except.bind]
          exact ih _ _ _ h
        · cases hg : guide_trace.lookup name with
          | none =>
              have hcs : computeStep guide_trace st target_site (accM, accN)
                  (name, site) = .error "KeyError" := by
                simp [computeStep, hty, hobs, ofOption, hg, Bind.bind, Except.bind]
              rw [hcs] at h
              simp [Bind.bind, Except.bind] at h
          | some g =>
              cases hsub : site.batch_log_pdf.sub g.score_parts.1 with
              | error m2 =>
                  have hcs : computeStep guide_trace st target_site (accM, accN)
                      (name, site) = .error m2 := by
                    simp [computeStep, hty, hobs, ofOption, hg, hsub, Bind.bind,
                      Except.bind]
                  rw [hcs] at h
                  simp [Bind.bind, Except.bind] at h
              | ok tt =>
                  have hcs : computeStep guide_trace st target_site (accM, accN)
                      (name, site) =
                      .ok (accM.add ((MultiViewTensor.ofTensor
                          tt.detach).sum_leftmost_all_but
                        (n_compatible_indices st name target_site)),
                        accN ++ [(name, { site with batch_log_pdf := tt })]) := by
                    simp [computeStep, hty, hobs, ofOption, hg, hsub, Bind.bind,
                      Except.bind, Pure.pure, Except.pure]
                  have hss : specStep guide_trace st target_site accM (name, site) =
                      .ok (accM.add ((MultiViewTensor.ofTensor
                          tt.detach).sum_leftmost_all_but
                        (n_compatible_indices st name target_site))) := by
                    simp [specStep, siteLogRTerm, hobs, ofOption, hg, hsub, Bind.bind,
                      Except.bind, Pure.pure, Except.pure]
                  rw [hcs] at h
                  simp only [Bind.bind, Except.bind] at h
                  rw [hss]
                  simp only [Bind.bind, Except.bind]
                  exact ih _ _ _ h
      · have hfl : ((name, site) :: rest).filter (fun p => p.2.stype = SiteType.sample) =
            rest.filter (fun p => p.2.stype = SiteType.sample) := by
          simp [List.filter_cons, hty]
        rw [hfl]
        have hcs : computeStep guide_trace st target_site (accM, accN) (name, site) =
            .ok (accM, accN ++ [(name, site)]) := by
          simp [computeStep, hty, Pure.pure, Except.pure]
        rw [hcs] at h
        simp only [Bind.bind, Except.bind] at h
        exact ih _ _ _ h

/-- C1 amended: a successful `compute_site_log_r` call returns a tensor
of exactly `target_shape`, and that tensor is precisely the spec's
accumulation over **all** sample sites of the model trace (the target
site included) of each site's detached, dimension-restricted log-ratio
term, contracted to `target_shape`. -/
theorem compute_site_log_r_sums_all_sites (model_trace guide_trace : Trace)
    (target_site : String) (target_shape : List ℕ) (p : Tensor × Trace)
    (h : compute_site_log_r model_trace guide_trace target_site target_shape = .ok p) :
    p.1.shape = target_shape ∧
    specSiteLogR model_trace guide_trace target_site target_shape = .ok p.1 := by
  unfold compute_site_log_r at h
  cases hf : model_trace.nodes.foldlM
      (computeStep guide_trace model_trace.iarange_stacks target_site)
      (MultiViewTensor.empty, []) with
  | error m2 => rw [hf] at h; simp [Bind.bind, Except.bind] at h
  | ok res =>
      rw [hf] at h
      simp only [Bind.bind, Except.bind] at h
      cases hc : res.1.contract target_shape with
      | error m2 => rw [hc] at h; simp at h
      | ok t =>
          rw [hc] at h
          simp only [Pure.pure, Except.pure, Except.ok.injEq] at h
          have hspec := computeStep_fold_spec guide_trace model_trace.iarange_stacks
            target_site model_trace.nodes MultiViewTensor.empty [] res hf
          have hshape := contract_shape hc
          constructor
          · rw [← h]
            exact hshape
          · unfold specSiteLogR
            rw [hspec]
            simp only [Bind.bind, Except.bind, hc]
            rw [← h]

/-- Concrete run for the amended C1 theorem: on `exM1`/`exG1` the call
returns the scalar `9` of shape `[]` (the target shape), and the spec's
all-sites accumulation returns the same tensor. -/
theorem compute_site_log_r_sums_all_sites_witness :
    compute_site_log_r exM1 exG1 "a" [] = .ok (⟨[], [some 9], false⟩, exM1after) ∧
    (Tensor.mk [] [some 9] false).shape = [] ∧
    specSiteLogR exM1 exG1 "a" [] = .ok ⟨[], [some 9], false⟩ :=
  have h : compute_site_log_r exM1 exG1 "a" [] =
      .ok (⟨[], [some 9], false⟩, exM1after) := by
    norm_num +decide [compute_site_log_r, computeStep, exM1, exG1, exM1after, mkLatent,
      mkGuide, tS, Trace.lookup, lookupSite, ofOption, n_compatible_indices,
      n_compatible_indices.commonPrefixLen, MultiViewTensor.empty,
      MultiViewTensor.ofTensor, MultiViewTensor.addT, MultiViewTensor.add,
      MultiViewTensor.sum_leftmost_all_but, MultiViewTensor.contract,
      Tensor.sub, Tensor.detach, Tensor.sum_leftmost_all_but, Tensor.broadcastTo,
      Tensor.addSameShape, sumChunks, tile, List.foldlM, List.foldl,
      Except.bind, Bind.bind, Except.pure, Pure.pure, Except.map, Functor.map,
      fadd, fneg, fsub, fsum, range_one_eq]
  ⟨h, (compute_site_log_r_sums_all_sites exM1 exG1 "a" [] _ h).1,
    (compute_site_log_r_sums_all_sites exM1 exG1 "a" [] _ h).2⟩
